import Mathlib

/-!
# Metainfo client (`uplink/metainfo/client.go`)

A shallow embedding of the segment coordination client: the operations
`CreateSegment`, `CommitSegment`, `SegmentInfo`, `ReadSegment`, `DeleteSegment`,
`ListSegments` and the alignment functions `sortLimits` and
`getLimitByStorageNodeID`.

Conventions of the embedding.

* A Go pointer to a message is an `Option`: `none` is the nil pointer.  The
  generated getters (`GetRemote`, `GetTotal`, ...) are nil-safe and are embedded
  as total functions; a plain field access through a nil pointer is a run-time
  panic.
* A run-time panic is the `Except.error` side of `Except GoPanic`.
* A Go slice is a `List`; the nil slice is `[]`.
* A Go `string` and a `[]byte` are both the sequence of their bytes, so the
  conversions `[]byte(s)` and `storj.Path(b)` are the identity.
* `int32` fields are `Int`; the one arithmetic operation on them wraps
  explicitly.
* The coordinator (`pb.MetainfoClient`) is a function from requests to
  `Except CoordError response`.
-/

namespace Metainfo

/-! ## Data model -/

/-- A Go byte sequence (`string`, `[]byte`, `storj.Path`). -/
abbrev Bytes := List Nat

/-- Modelled from the spec: the type `storj.NodeID` of `pkg/storj` (not among the
sources), the spec's `NodeID`: a fixed array of bytes, compared with `==`. -/
structure NodeID where
  bytes : List Nat
  deriving DecidableEq, Repr

/-- Modelled from the spec: the type `storj.PieceID` of `pkg/storj` (not among the
sources), the spec's `PieceID`; its zero value is the zero array. -/
structure PieceID where
  bytes : List Nat
  deriving DecidableEq, Repr

/-- Zero value of `storj.PieceID` (the named result `rootPieceID` before any
assignment). -/
def PieceID.zero : PieceID := ⟨[]⟩

/-- Modelled from the spec: the message `pb.OrderLimit2` of `pkg/pb` (generated
code, not among the sources), the spec's piece authorization: the node the limit
is issued for, and the rest of the signed limit (token, expiration, ...) as one
value. -/
structure OrderLimit2 where
  storageNodeId : NodeID
  serialNumber : Nat
  deriving DecidableEq, Repr

/-- Modelled from the spec: the message `pb.AddressedOrderLimit` of `pkg/pb` (not
among the sources): an order limit with the address of its node; `Limit` is a
pointer to the order limit. -/
structure AddressedOrderLimit where
  limit : Option OrderLimit2
  storageNodeAddress : Bytes
  deriving DecidableEq, Repr

/-- Modelled from the spec: the message `pb.RedundancyScheme` of `pkg/pb` (not
among the sources) with the fields of the spec's redundancy scheme; in the
protobuf schema every field is an `int32`, hence `Int`. -/
structure RedundancyScheme where
  minReq : Int
  total : Int
  repairThreshold : Int
  successThreshold : Int
  erasureShareSize : Int
  deriving DecidableEq, Repr

/-- Modelled from the spec: the message `pb.RemotePiece` of `pkg/pb` (not among the
sources), the spec's piece assignment `{pieceNumber, nodeID}`; the piece number is
an `int32` in the protobuf schema. -/
structure RemotePiece where
  pieceNum : Int
  nodeId : NodeID
  deriving DecidableEq, Repr

/-- Modelled from the spec: the message `pb.RemoteSegment` of `pkg/pb` (not among
the sources): the redundancy scheme, root piece id and pieces of a pointer. -/
structure RemoteSegment where
  redundancy : Option RedundancyScheme
  rootPieceId : PieceID
  remotePieces : List (Option RemotePiece)
  deriving DecidableEq, Repr

/-- Modelled from the spec: the message `pb.Pointer` of `pkg/pb` (not among the
sources); `segmentSize` is an `int64`, `metadata` stands for the fields the client
never touches (times, metadata). -/
structure Pointer where
  segmentSize : Int
  remote : Option RemoteSegment
  metadata : Bytes
  deriving DecidableEq, Repr

/-- Run-time panics of the Go code. -/
inductive GoPanic where
  | nilDereference
  | indexOutOfRange
  | makeLenOutOfRange
  deriving DecidableEq, Repr

/-- Transport status codes (`google.golang.org/grpc/codes`), as far as the client
tells them apart. -/
inductive Code where
  | ok
  | canceled
  | unknown
  | invalidArgument
  | deadlineExceeded
  | notFound
  | permissionDenied
  | internal
  | unavailable
  deriving DecidableEq, Repr

/-- The two `errs.Class` values the client wraps with: `Error` (metainfo error),
declared in the source, and `storage.ErrKeyNotFound`, the spec's distinguished
not-found kind, declared in package `storage`. -/
inductive ErrClass where
  | Error
  | ErrKeyNotFound
  deriving DecidableEq, Repr

/-- A Go `error` value: an error that carries a transport status, the error of
`ptypes.TimestampProto`, any other error with neither status nor class, or an
error of an `errs.Class` around the error it wraps. -/
inductive GoError where
  | status (code : Code) (message : String)
  | timestamp (message : String)
  | plain (message : String)
  | wrapped (cls : ErrClass) (cause : GoError)
  deriving DecidableEq, Repr

/-- An error returned by a coordinator call: `pb.MetainfoClient` is an interface,
so it may be any Go error, also one that already belongs to an `errs.Class`. -/
abbrev CoordError := GoError

/-- The function `status.Code` on a non-nil error: the code of an error that
carries a status, `Unknown` for any other error. -/
def status.Code : CoordError → Code
  | .status code _ => code
  | .timestamp _ => .unknown
  | .plain _ => .unknown
  | .wrapped _ _ => .unknown

/-- The method `Class.Wrap` on a non-nil error: an error whose outermost class is
already this class is returned as it is, any other error is wrapped in a new
error of the class. -/
def ErrClass.Wrap (cls : ErrClass) (err : CoordError) : GoError :=
  match err with
  | .wrapped c _ => if c = cls then err else .wrapped cls err
  | .status _ _ => .wrapped cls err
  | .timestamp _ => .wrapped cls err
  | .plain _ => .wrapped cls err

/-- The method `Class.Has`: whether the error, or an error it wraps, was wrapped
by the class. -/
def ErrClass.Has (cls : ErrClass) : GoError → Bool
  | .wrapped c cause => c == cls || ErrClass.Has cls cause
  | .status _ _ => false
  | .timestamp _ => false
  | .plain _ => false

/-- The function `errs.Unwrap`: the innermost error, under every class. -/
def GoError.Unwrap : GoError → GoError
  | .wrapped _ cause => GoError.Unwrap cause
  | .status code message => .status code message
  | .timestamp message => .timestamp message
  | .plain message => .plain message

/-! ## Nil-safe getters of the generated messages -/

/-- Modelled from the spec: nil-safe generated getter `(*AddressedOrderLimit).GetLimit`. -/
def AddressedOrderLimit.GetLimit : Option AddressedOrderLimit → Option OrderLimit2
  | none => none
  | some a => a.limit

/-- Modelled from the spec: nil-safe generated getter `(*Pointer).GetRemote`. -/
def Pointer.GetRemote : Option Pointer → Option RemoteSegment
  | none => none
  | some p => p.remote

/-- Modelled from the spec: nil-safe generated getter `(*RemoteSegment).GetRedundancy`. -/
def RemoteSegment.GetRedundancy : Option RemoteSegment → Option RedundancyScheme
  | none => none
  | some r => r.redundancy

/-- Modelled from the spec: nil-safe generated getter `(*RemoteSegment).GetRemotePieces`. -/
def RemoteSegment.GetRemotePieces : Option RemoteSegment → List (Option RemotePiece)
  | none => []
  | some r => r.remotePieces

/-- Modelled from the spec: nil-safe generated getter `(*RedundancyScheme).GetTotal`. -/
def RedundancyScheme.GetTotal : Option RedundancyScheme → Int
  | none => 0
  | some r => r.total

/-- Modelled from the spec: nil-safe generated getter `(*RemotePiece).GetPieceNum`. -/
def RemotePiece.GetPieceNum : Option RemotePiece → Int
  | none => 0
  | some p => p.pieceNum

/-! ## Alignment: `getLimitByStorageNodeID` and `sortLimits` -/

/-- The function `getLimitByStorageNodeID`: the first limit of the list issued
for the node, nil when there is none.  `limit.GetLimit().StorageNodeId` panics
when the limit carries no order limit. -/
def getLimitByStorageNodeID :
    List (Option AddressedOrderLimit) → NodeID → Except GoPanic (Option AddressedOrderLimit)
  | [], _ => .ok none
  | limit :: rest, storageNodeID =>
    match AddressedOrderLimit.GetLimit limit with
    | none => .error .nilDereference
    | some ol =>
      if ol.storageNodeId = storageNodeID then .ok limit
      else getLimitByStorageNodeID rest storageNodeID

/-- The loop of `sortLimits` over the remote pieces:
`sorted[piece.GetPieceNum()] = getLimitByStorageNodeID(limits, piece.NodeId)`.
The index and the right-hand side are evaluated first, the bounds check of the
store comes last. -/
def sortLimitsLoop (limits : List (Option AddressedOrderLimit)) :
    List (Option RemotePiece) → List (Option AddressedOrderLimit) →
      Except GoPanic (List (Option AddressedOrderLimit))
  | [], sorted => .ok sorted
  | piece :: rest, sorted =>
    let pieceNum := RemotePiece.GetPieceNum piece
    match piece with
    | none => .error .nilDereference
    | some p =>
      match getLimitByStorageNodeID limits p.nodeId with
      | .error e => .error e
      | .ok found =>
        if 0 ≤ pieceNum ∧ pieceNum < sorted.length then
          sortLimitsLoop limits rest (sorted.set pieceNum.toNat found)
        else .error .indexOutOfRange

/-- The function `sortLimits`: sorts order limits and fills missing ones with
nil values. -/
def sortLimits (limits : List (Option AddressedOrderLimit)) (pointer : Option Pointer) :
    Except GoPanic (List (Option AddressedOrderLimit)) :=
  let total := RedundancyScheme.GetTotal (RemoteSegment.GetRedundancy (Pointer.GetRemote pointer))
  if total < 0 then .error .makeLenOutOfRange
  else
    sortLimitsLoop limits (RemoteSegment.GetRemotePieces (Pointer.GetRemote pointer))
      (List.replicate total.toNat none)

/-! ## Coordinator messages -/

/-- The message `timestamp.Timestamp`. -/
structure Timestamp where
  seconds : Int
  nanos : Int
  deriving DecidableEq, Repr

/-- A Go `time.Time`: seconds and nanoseconds since the zero time. -/
structure Time where
  sec : Int
  nsec : Int
  deriving DecidableEq, Repr

/-- The method `Time.IsZero`. -/
def Time.IsZero (t : Time) : Bool := t.sec == 0 && t.nsec == 0

/-- Modelled from the spec: the message `pb.SegmentWriteRequest` of `pkg/pb` (not among the
sources), with the fields the client reads or writes. -/
structure SegmentWriteRequest where
  bucket : Bytes
  path : Bytes
  segment : Int
  redundancy : Option RedundancyScheme
  maxEncryptedSegmentSize : Int
  expiration : Option Timestamp
  deriving DecidableEq, Repr

/-- Modelled from the spec: the message `pb.SegmentWriteResponse` of `pkg/pb` (not among the
sources), with the fields the client reads or writes. -/
structure SegmentWriteResponse where
  addressedLimits : List (Option AddressedOrderLimit)
  rootPieceId : PieceID
  deriving DecidableEq, Repr

/-- Modelled from the spec: the message `pb.SegmentCommitRequest` of `pkg/pb` (not among the
sources), with the fields the client reads or writes. -/
structure SegmentCommitRequest where
  bucket : Bytes
  path : Bytes
  segment : Int
  pointer : Option Pointer
  originalLimits : List (Option OrderLimit2)
  deriving DecidableEq, Repr

/-- Modelled from the spec: the message `pb.SegmentCommitResponse` of `pkg/pb` (not among the
sources), with the fields the client reads or writes. -/
structure SegmentCommitResponse where
  pointer : Option Pointer
  deriving DecidableEq, Repr

/-- Modelled from the spec: the common shape of `pb.SegmentInfoRequest`,
`pb.SegmentDownloadRequest` and `pb.SegmentDeleteRequest` of `pkg/pb` (not among
the sources): the spec's segment locator. -/
structure SegmentRequest where
  bucket : Bytes
  path : Bytes
  segment : Int
  deriving DecidableEq, Repr

/-- Modelled from the spec: the message `pb.SegmentInfoResponse` of `pkg/pb` (not among the
sources), with the fields the client reads or writes. -/
structure SegmentInfoResponse where
  pointer : Option Pointer
  deriving DecidableEq, Repr

/-- Modelled from the spec: the message `pb.SegmentDownloadResponse` of `pkg/pb` (not among the
sources), with the fields the client reads or writes. -/
structure SegmentDownloadResponse where
  addressedLimits : List (Option AddressedOrderLimit)
  pointer : Option Pointer
  deriving DecidableEq, Repr

/-- Modelled from the spec: the message `pb.SegmentDeleteResponse` of `pkg/pb` (not among the
sources), with the fields the client reads or writes. -/
structure SegmentDeleteResponse where
  addressedLimits : List (Option AddressedOrderLimit)
  deriving DecidableEq, Repr

/-- Modelled from the spec: the message `pb.ListSegmentsRequest` of `pkg/pb` (not among the
sources), with the fields the client reads or writes. -/
structure ListSegmentsRequest where
  bucket : Bytes
  pfx : Bytes
  startAfter : Bytes
  endBefore : Bytes
  recursive : Bool
  limit : Int
  metaFlags : Nat
  deriving DecidableEq, Repr

/-- Modelled from the spec: the message `pb.ListSegmentsResponse_Item` of `pkg/pb` (not among the
sources), with the fields the client reads or writes. -/
structure ResponseItem where
  path : Bytes
  pointer : Option Pointer
  isPrefix : Bool
  deriving DecidableEq, Repr

/-- Modelled from the spec: the message `pb.ListSegmentsResponse` of `pkg/pb` (not among the
sources), with the fields the client reads or writes. -/
structure ListSegmentsResponse where
  items : List (Option ResponseItem)
  more : Bool
  deriving DecidableEq, Repr

/-- Modelled from the spec: nil-safe generated getter `(*ListSegmentsResponse_Item).GetPath`. -/
def ResponseItem.GetPath : Option ResponseItem → Bytes
  | none => []
  | some it => it.path

/-- Modelled from the spec: nil-safe generated getter `(*ListSegmentsResponse_Item).GetPointer`. -/
def ResponseItem.GetPointer : Option ResponseItem → Option Pointer
  | none => none
  | some it => it.pointer

/-- The type `ListItem`: a single item in a listing. -/
structure ListItem where
  Path : Bytes
  Pointer : Option Pointer
  IsPrefix : Bool
  deriving DecidableEq, Repr

/-- Zero value of `ListItem`, what `make` fills the slice with. -/
def ListItem.zero : ListItem := ⟨[], none, false⟩

/-! ## `CreateSegment` -/

/-- Two's-complement wrap-around of an `int32` result. -/
def wrapInt32 (x : Int) : Int := (x + 2147483648) % 4294967296 - 2147483648

/-- The condition of the `if` in the loop over the response: the string form of
the limit's storage node id is one of the three literals. -/
def isListedNode (idString : NodeID → String) (id : NodeID) : Bool :=
  idString id == "12qruBsrtK4t8K5UXcwhaZ1vdKmemPA3K2KZFcbHezUW4QbVf9e" ||
  idString id == "1C5vGU6nocW4wZSnmbXQGC5Ro9WXFXKwv9zG2FXKqy1bdqF7oj" ||
  idString id == "129ti5teMDGbrVGxN8ChkmRudKs8nuHvt9aJny9XhdBnEzrSZS3"

/-- The loop `for node := range response.GetAddressedLimits()` of
`CreateSegment`, on the state `(list, count)`.  The access
`...[node].Limit.StorageNodeId` panics on a nil element and on a nil `Limit`. -/
def collectLimits (idString : NodeID → String) (total : Int) :
    List (Option AddressedOrderLimit) → List (Option AddressedOrderLimit) × Int →
      Except GoPanic (List (Option AddressedOrderLimit) × Int)
  | [], state => .ok state
  | entry :: rest, (list, count) =>
    match entry with
    | none => .error .nilDereference
    | some a =>
      match a.limit with
      | none => .error .nilDereference
      | some ol =>
        if isListedNode idString ol.storageNodeId then
          collectLimits idString total rest (list ++ [entry], count)
        else if total > 0 then
          collectLimits idString total rest (list ++ [entry], count + 1)
        else
          collectLimits idString total rest (list, count)

/-- What `CreateSegment` returns: `(limits, rootPieceID, err)`. -/
structure CreateResult where
  limits : List (Option AddressedOrderLimit)
  rootPieceID : PieceID
  err : Option GoError
  deriving DecidableEq, Repr

/-- How a run of a function ends: it returns, it panics, or it is still inside
its loop when the fuel is used up. -/
inductive Outcome (α : Type) where
  | returned (a : α)
  | panicked (p : GoPanic)
  | running
  deriving DecidableEq, Repr

/-- The `for { ... }` loop of `CreateSegment`.  `coordinator n req` is the answer
of the coordinator to the call number `n`; the result is the list of the requests
sent and the outcome.  `fuel` bounds the number of iterations. -/
def createSegmentLoop (coordinator : Nat → SegmentWriteRequest → Except CoordError SegmentWriteResponse)
    (idString : NodeID → String) (request : SegmentWriteRequest) (total : Int) :
    Nat → Nat → List SegmentWriteRequest × Outcome CreateResult
  | 0, _ => ([], .running)
  | fuel + 1, calls =>
    match coordinator calls request with
    | .error err => ([request], .returned ⟨[], PieceID.zero, some (ErrClass.Error.Wrap err)⟩)
    | .ok response =>
      match collectLimits idString total response.addressedLimits ([], 0) with
      | .error p => ([request], .panicked p)
      | .ok (list, count) =>
        if count + 1 = (list.length : Int) then
          ([request], .returned ⟨list, response.rootPieceId, none⟩)
        else
          let next := createSegmentLoop coordinator idString request total fuel (calls + 1)
          (request :: next.1, next.2)

/-- A run of `CreateSegment`: the caller's redundancy scheme as the call leaves
it, the requests sent to the coordinator, and the outcome. -/
structure CreateRun where
  redundancy : Option RedundancyScheme
  sent : List SegmentWriteRequest
  outcome : Outcome CreateResult
  deriving DecidableEq, Repr

/-- The first block of `CreateSegment`: the expiration as a timestamp, nil for
the zero time; `timestampProto` is `ptypes.TimestampProto`. -/
def expirationProto (timestampProto : Time → Except String Timestamp) (expiration : Time) :
    Except String (Option Timestamp) :=
  if !expiration.IsZero then
    match timestampProto expiration with
    | .error msg => .error msg
    | .ok ts => .ok (some ts)
  else .ok none

/-- The request `CreateSegment` builds in each iteration; `redundancy` is the
caller's scheme as the shared pointer shows it at that time. -/
def writeRequest (bucket path : Bytes) (segmentIndex : Int) (redundancy : RedundancyScheme)
    (maxEncryptedSegmentSize : Int) (exp : Option Timestamp) : SegmentWriteRequest :=
  { bucket := bucket, path := path, segment := segmentIndex, redundancy := some redundancy,
    maxEncryptedSegmentSize := maxEncryptedSegmentSize, expiration := exp }

/-- The method `Client.CreateSegment`.  `redundancy` is the caller's pointer to its
scheme, which the request shares. -/
def CreateSegment (coordinator : Nat → SegmentWriteRequest → Except CoordError SegmentWriteResponse)
    (idString : NodeID → String) (timestampProto : Time → Except String Timestamp)
    (bucket path : Bytes) (segmentIndex : Int) (redundancy : Option RedundancyScheme)
    (maxEncryptedSegmentSize : Int) (expiration : Time) (fuel : Nat) : CreateRun :=
  match expirationProto timestampProto expiration with
  | .error msg => ⟨redundancy, [], .returned ⟨[], PieceID.zero, some (.timestamp msg)⟩⟩
  | .ok exp =>
    match redundancy with
    | none => ⟨none, [], .panicked .nilDereference⟩
    | some r =>
      let total := wrapInt32 (r.total - 3)
      let r256 : RedundancyScheme := { r with total := 256 }
      let run := createSegmentLoop coordinator idString
        (writeRequest bucket path segmentIndex r256 maxEncryptedSegmentSize exp) total fuel 0
      ⟨some r256, run.1, run.2⟩

/-! ## `CommitSegment` -/

/-- A run of `CommitSegment`: the caller's pointer as the call leaves it, the
request sent (if any), and the returned `(savedPointer, err)`. -/
structure CommitRun where
  pointer : Option Pointer
  sent : Option SegmentCommitRequest
  savedPointer : Option Pointer
  err : Option GoError
  deriving DecidableEq, Repr

/-- The method `Client.CommitSegment`.  The store `pointer.SegmentSize = ...`
goes through the caller's pointer, which the request shares. -/
def CommitSegment (coordinator : SegmentCommitRequest → Except CoordError SegmentCommitResponse)
    (bucket path : Bytes) (segmentIndex : Int) (pointer : Option Pointer)
    (originalLimits : List (Option OrderLimit2)) : Except GoPanic CommitRun :=
  match pointer with
  | none => .error .nilDereference
  | some p =>
    let stored : Pointer := { p with segmentSize := 133713371337133 }
    let request : SegmentCommitRequest :=
      { bucket := bucket, path := path, segment := segmentIndex, pointer := some stored,
        originalLimits := originalLimits }
    match coordinator request with
    | .error err => .ok ⟨some stored, some request, none, some (ErrClass.Error.Wrap err)⟩
    | .ok response => .ok ⟨some stored, some request, response.pointer, none⟩

/-! ## `SegmentInfo`, `ReadSegment`, `DeleteSegment` -/

/-- What `SegmentInfo` returns: `(pointer, err)`. -/
structure InfoResult where
  pointer : Option Pointer
  err : Option GoError
  deriving DecidableEq, Repr

/-- The method `Client.SegmentInfo`. -/
def SegmentInfo (coordinator : SegmentRequest → Except CoordError SegmentInfoResponse)
    (bucket path : Bytes) (segmentIndex : Int) : InfoResult :=
  match coordinator { bucket := bucket, path := path, segment := segmentIndex } with
  | .error err =>
    if status.Code err = Code.notFound then ⟨none, some (ErrClass.ErrKeyNotFound.Wrap err)⟩
    else ⟨none, some (ErrClass.Error.Wrap err)⟩
  | .ok response => ⟨response.pointer, none⟩

/-- What `ReadSegment` returns: `(pointer, limits, err)`. -/
structure ReadResult where
  pointer : Option Pointer
  limits : List (Option AddressedOrderLimit)
  err : Option GoError
  deriving DecidableEq, Repr

/-- The method `Client.ReadSegment`; a panic of `sortLimits` leaves the method. -/
def ReadSegment (coordinator : SegmentRequest → Except CoordError SegmentDownloadResponse)
    (bucket path : Bytes) (segmentIndex : Int) : Except GoPanic ReadResult :=
  match coordinator { bucket := bucket, path := path, segment := segmentIndex } with
  | .error err =>
    if status.Code err = Code.notFound then .ok ⟨none, [], some (ErrClass.ErrKeyNotFound.Wrap err)⟩
    else .ok ⟨none, [], some (ErrClass.Error.Wrap err)⟩
  | .ok response =>
    match sortLimits response.addressedLimits response.pointer with
    | .error p => .error p
    | .ok sorted => .ok ⟨response.pointer, sorted, none⟩

/-- What `DeleteSegment` returns: `(limits, err)`. -/
structure DeleteResult where
  limits : List (Option AddressedOrderLimit)
  err : Option GoError
  deriving DecidableEq, Repr

/-- The method `Client.DeleteSegment`. -/
def DeleteSegment (coordinator : SegmentRequest → Except CoordError SegmentDeleteResponse)
    (bucket path : Bytes) (segmentIndex : Int) : DeleteResult :=
  match coordinator { bucket := bucket, path := path, segment := segmentIndex } with
  | .error err =>
    if status.Code err = Code.notFound then ⟨[], some (ErrClass.ErrKeyNotFound.Wrap err)⟩
    else ⟨[], some (ErrClass.Error.Wrap err)⟩
  | .ok response => ⟨response.addressedLimits, none⟩

/-! ## `ListSegments` -/

/-- The loop `for i, item := range list` of `ListSegments`, from index `i` on;
`item.IsPrefix` panics on a nil item. -/
def listSegmentsLoop : List (Option ResponseItem) → Nat → List ListItem →
    Except GoPanic (List ListItem)
  | [], _, items => .ok items
  | item :: rest, i, items =>
    match item with
    | none => .error .nilDereference
    | some it =>
      listSegmentsLoop rest (i + 1)
        (items.set i
          { Path := ResponseItem.GetPath item, Pointer := ResponseItem.GetPointer item,
            IsPrefix := it.isPrefix })

/-- What `ListSegments` returns: `(items, more, err)`. -/
structure ListResult where
  items : List ListItem
  more : Bool
  err : Option GoError
  deriving DecidableEq, Repr

/-- The method `Client.ListSegments`. -/
def ListSegments (coordinator : ListSegmentsRequest → Except CoordError ListSegmentsResponse)
    (bucket pfx startAfter endBefore : Bytes) (recursive : Bool) (limit : Int)
    (metaFlags : Nat) : Except GoPanic ListResult :=
  match coordinator
      { bucket := bucket, pfx := pfx, startAfter := startAfter, endBefore := endBefore,
        recursive := recursive, limit := limit, metaFlags := metaFlags } with
  | .error err => .ok ⟨[], false, some (ErrClass.Error.Wrap err)⟩
  | .ok response =>
    match listSegmentsLoop response.items 0 (List.replicate response.items.length ListItem.zero) with
    | .error p => .error p
    | .ok items => .ok ⟨items, response.more, none⟩

/-! ## Expressions of the source named for the statements -/

/-- The node id read by `limit.GetLimit().StorageNodeId`, when the read does not
panic. -/
def limitNodeID (limit : Option AddressedOrderLimit) : Option NodeID :=
  (AddressedOrderLimit.GetLimit limit).map OrderLimit2.storageNodeId

/-- The pieces `sortLimits` iterates over. -/
def pointerPieces (pointer : Option Pointer) : List (Option RemotePiece) :=
  RemoteSegment.GetRemotePieces (Pointer.GetRemote pointer)

/-- The length `sortLimits` passes to `make`. -/
def pointerTotal (pointer : Option Pointer) : Int :=
  RedundancyScheme.GetTotal (RemoteSegment.GetRedundancy (Pointer.GetRemote pointer))

/-- The condition `...[node].Limit.StorageNodeId.String() == ...` of the loop of
`CreateSegment` on an entry of the response, when the read does not panic. -/
def isListedLimit (idString : NodeID → String) (entry : Option AddressedOrderLimit) : Bool :=
  match limitNodeID entry with
  | some id => isListedNode idString id
  | none => false

/-! ## Example inputs -/

/-- Node of the first example limit. -/
def nodeA : NodeID := ⟨[1]⟩

/-- Node of the second example limit. -/
def nodeB : NodeID := ⟨[2]⟩

/-- Node without a limit in the examples. -/
def nodeC : NodeID := ⟨[3]⟩

/-- First limit issued for `nodeA`. -/
def limitA : AddressedOrderLimit := ⟨some ⟨nodeA, 10⟩, []⟩

/-- Second limit issued for `nodeA`. -/
def limitA2 : AddressedOrderLimit := ⟨some ⟨nodeA, 11⟩, []⟩

/-- Limit issued for `nodeB`. -/
def limitB : AddressedOrderLimit := ⟨some ⟨nodeB, 20⟩, []⟩

/-- Limits of the alignment examples, two of them for `nodeA`. -/
def exampleLimits : List (Option AddressedOrderLimit) :=
  [some limitA, some limitB, some limitA2]

/-- Scheme with `total = 3`. -/
def schemeOfThree : RedundancyScheme := ⟨1, 3, 2, 3, 256⟩

/-- Pointer with distinct piece numbers 2, 0 and 1 on `nodeA`, `nodeB` and
`nodeC`, and `total = 3`. -/
def alignedPointer : Pointer :=
  ⟨1024, some ⟨some schemeOfThree, PieceID.zero,
    [some ⟨2, nodeA⟩, some ⟨0, nodeB⟩, some ⟨1, nodeC⟩]⟩, []⟩

/-- Pointer with two pieces numbered 0, on `nodeA` and then on `nodeB`, and
`total = 3`. -/
def duplicatePointer : Pointer :=
  ⟨1024, some ⟨some schemeOfThree, PieceID.zero, [some ⟨0, nodeA⟩, some ⟨0, nodeB⟩]⟩, []⟩

/-- Pointer with a piece numbered 3 and `total = 3`. -/
def outOfRangePointer : Pointer :=
  ⟨1024, some ⟨some schemeOfThree, PieceID.zero, [some ⟨0, nodeA⟩, some ⟨3, nodeB⟩]⟩, []⟩

/-- Coordinator answering every download request with the given pointer and the
example limits. -/
def downloadCoordinator (pointer : Pointer) :
    SegmentRequest → Except CoordError SegmentDownloadResponse :=
  fun _ => .ok ⟨exampleLimits, some pointer⟩

/-- Coordinator error with the not-found status. -/
def notFoundError : CoordError := .status .notFound "segment not found"

/-- Coordinator error with another status. -/
def unavailableError : CoordError := .status .unavailable "connection refused"

/-- Coordinator error that already belongs to `storage.ErrKeyNotFound` and carries
no status, as an in-process coordinator over a key-value store returns it. -/
def keyNotFoundClassError : CoordError :=
  .wrapped .ErrKeyNotFound (.plain "key not found")

/-- Items of the listing example: an object and a prefix. -/
def exampleItems : List ResponseItem :=
  [⟨[97], some alignedPointer, false⟩, ⟨[98, 47], none, true⟩]

/-- Coordinator answering every listing request with the example items. -/
def listCoordinator : ListSegmentsRequest → Except CoordError ListSegmentsResponse :=
  fun _ => .ok ⟨exampleItems.map some, true⟩

/-- String form of the example nodes: `nodeA` is the first listed node, every
other node is not listed. -/
def exampleIdString : NodeID → String :=
  fun id => if id = nodeA then "12qruBsrtK4t8K5UXcwhaZ1vdKmemPA3K2KZFcbHezUW4QbVf9e" else "1unlisted"

/-- Scheme with `total = 80` and `minReq = 29`. -/
def schemeOfEighty : RedundancyScheme := ⟨29, 80, 35, 50, 256⟩

/-- Response with 25 limits, the last one for the listed `nodeA`. -/
def responseOf25 : SegmentWriteResponse :=
  ⟨List.replicate 24 (some limitB) ++ [some limitA], ⟨[7]⟩⟩

/-- Response with 29 limits, none for a listed node. -/
def responseOf29 : SegmentWriteResponse :=
  ⟨List.replicate 29 (some limitB), ⟨[7]⟩⟩

/-- The zero time: no expiration. -/
def zeroTime : Time := ⟨0, 0⟩

/-- A timestamp conversion that accepts every time. -/
def acceptingProto : Time → Except String Timestamp := fun t => .ok ⟨t.sec, t.nsec⟩

/-- Response with two limits, the second one for the listed `nodeA`. -/
def responseOfTwo : SegmentWriteResponse := ⟨[some limitB, some limitA], ⟨[9]⟩⟩

/-! # Theorems -/

/-! ## Lemmas on the alignment functions -/

theorem limitNodeID_none : limitNodeID none = none := rfl

/-- On limits that all carry their order limit, the lookup does not panic and
returns the first limit issued for the node. -/
theorem getLimitByStorageNodeID_eq_find (limits : List (Option AddressedOrderLimit))
    (id : NodeID) (hl : ∀ l ∈ limits, (AddressedOrderLimit.GetLimit l).isSome = true) :
    getLimitByStorageNodeID limits id =
      .ok (limits.find? (fun l => decide (limitNodeID l = some id))).join := by
  induction limits with
  | nil => rfl
  | cons l rest ih =>
    have hl0 := hl l (List.mem_cons_self _ _)
    have hrest : ∀ x ∈ rest, (AddressedOrderLimit.GetLimit x).isSome = true :=
      fun x hx => hl x (List.mem_cons_of_mem _ hx)
    cases hg : AddressedOrderLimit.GetLimit l with
    | none => simp [hg] at hl0
    | some ol =>
      cases l with
      | none => simp [AddressedOrderLimit.GetLimit] at hg
      | some a =>
        by_cases hid : ol.storageNodeId = id
        · simp [getLimitByStorageNodeID, hg, hid, limitNodeID, List.find?_cons]
        · simp [getLimitByStorageNodeID, hg, hid, limitNodeID, List.find?_cons]
          have := ih hrest
          simpa [limitNodeID] using this

/-- The loop of `sortLimits` on well-formed input: it does not panic, keeps the
length, writes for each piece number the lookup of the last piece carrying it,
and leaves the other slots alone. -/
theorem sortLimitsLoop_spec (limits : List (Option AddressedOrderLimit))
    (hl : ∀ l ∈ limits, (AddressedOrderLimit.GetLimit l).isSome = true)
    (pieces : List (Option RemotePiece)) :
    ∀ sorted : List (Option AddressedOrderLimit),
      (∀ q ∈ pieces, ∃ p, q = some p ∧ 0 ≤ p.pieceNum ∧ p.pieceNum < (sorted.length : Int)) →
      ∃ out, sortLimitsLoop limits pieces sorted = .ok out ∧ out.length = sorted.length ∧
        (∀ front p back, pieces = front ++ some p :: back →
          (∀ q ∈ back, RemotePiece.GetPieceNum q ≠ p.pieceNum) →
          out[p.pieceNum.toNat]? =
            some (limits.find? (fun l => decide (limitNodeID l = some p.nodeId))).join) ∧
        (∀ i : Nat, (∀ q ∈ pieces, RemotePiece.GetPieceNum q ≠ (i : Int)) →
          out[i]? = sorted[i]?) := by
  induction pieces with
  | nil =>
    intro sorted _
    refine ⟨sorted, rfl, rfl, ?_, fun _ _ => rfl⟩
    intro front p back h
    simp at h
  | cons q rest ih =>
    intro sorted hp
    obtain ⟨p0, hq, h0, h1⟩ := hp q (List.mem_cons_self _ _)
    subst hq
    have hrest : ∀ x ∈ rest, ∃ p, x = some p ∧ 0 ≤ p.pieceNum ∧
        p.pieceNum < (((sorted.set p0.pieceNum.toNat
          (limits.find? (fun l => decide (limitNodeID l = some p0.nodeId))).join).length : Nat) : Int) := by
      intro x hx
      simpa using hp x (List.mem_cons_of_mem _ hx)
    obtain ⟨out, hout, hlen, hlast, hother⟩ := ih _ hrest
    have hk : p0.pieceNum.toNat < sorted.length := by omega
    refine ⟨out, ?_, ?_, ?_, ?_⟩
    · simp only [sortLimitsLoop, getLimitByStorageNodeID_eq_find limits _ hl,
        RemotePiece.GetPieceNum]
      rw [if_pos ⟨h0, h1⟩]
      exact hout
    · simpa using hlen
    · intro front p back hdec hback
      cases front with
      | nil =>
        simp only [List.nil_append, List.cons.injEq, Option.some.injEq] at hdec
        obtain ⟨hpp, hbb⟩ := hdec
        subst hpp; subst hbb
        have := hother p0.pieceNum.toNat (by
          intro x hx
          have := hback x hx
          rwa [Int.toNat_of_nonneg h0])
        rw [this, List.getElem?_set_self hk]
      | cons f front1 =>
        simp only [List.cons_append, List.cons.injEq] at hdec
        exact hlast front1 p back hdec.2 hback
    · intro i hi
      have hne : p0.pieceNum ≠ (i : Int) := by
        simpa [RemotePiece.GetPieceNum] using hi (some p0) (List.mem_cons_self _ _)
      have hne2 : p0.pieceNum.toNat ≠ i := by omega
      rw [hother i (fun x hx => hi x (List.mem_cons_of_mem _ hx))]
      exact List.getElem?_set_ne hne2

/-- The function `sortLimits` on well-formed input with piece numbers in range,
duplicates allowed. -/
theorem sortLimits_spec (limits : List (Option AddressedOrderLimit)) (pointer : Option Pointer)
    (ht : 0 ≤ pointerTotal pointer)
    (hl : ∀ l ∈ limits, (AddressedOrderLimit.GetLimit l).isSome = true)
    (hp : ∀ q ∈ pointerPieces pointer,
      ∃ p, q = some p ∧ 0 ≤ p.pieceNum ∧ p.pieceNum < pointerTotal pointer) :
    ∃ out, sortLimits limits pointer = .ok out ∧ (out.length : Int) = pointerTotal pointer ∧
      (∀ front p back, pointerPieces pointer = front ++ some p :: back →
        (∀ q ∈ back, RemotePiece.GetPieceNum q ≠ p.pieceNum) →
        out[p.pieceNum.toNat]? =
          some (limits.find? (fun l => decide (limitNodeID l = some p.nodeId))).join) ∧
      (∀ i : Nat, (i : Int) < pointerTotal pointer →
        (∀ q ∈ pointerPieces pointer, RemotePiece.GetPieceNum q ≠ (i : Int)) →
        out[i]? = some none) := by
  have hp2 : ∀ q ∈ pointerPieces pointer, ∃ p, q = some p ∧ 0 ≤ p.pieceNum ∧
      p.pieceNum < (((List.replicate (pointerTotal pointer).toNat
        (none : Option AddressedOrderLimit)).length : Nat) : Int) := by
    intro q hq
    obtain ⟨p, h1, h2, h3⟩ := hp q hq
    refine ⟨p, h1, h2, ?_⟩
    rw [List.length_replicate, Int.toNat_of_nonneg ht]
    exact h3
  obtain ⟨out, hout, hlen, hlast, hother⟩ :=
    sortLimitsLoop_spec limits hl (pointerPieces pointer) _ hp2
  refine ⟨out, ?_, ?_, hlast, ?_⟩
  · unfold sortLimits
    exact (if_neg (not_lt.mpr ht)).trans hout
  · rw [hlen, List.length_replicate, Int.toNat_of_nonneg ht]
  · intro i hi hq
    rw [hother i hq]
    have : i < (pointerTotal pointer).toNat := by omega
    simp [List.getElem?_replicate, this]

/-- A piece whose number is outside the slice makes the loop of `sortLimits`
panic, whatever the rest of the input. -/
theorem sortLimitsLoop_out_of_range (limits : List (Option AddressedOrderLimit))
    (pieces : List (Option RemotePiece)) :
    ∀ sorted : List (Option AddressedOrderLimit),
      (∃ q ∈ pieces, ¬ (0 ≤ RemotePiece.GetPieceNum q ∧
        RemotePiece.GetPieceNum q < (sorted.length : Int))) →
      ∃ e, sortLimitsLoop limits pieces sorted = .error e := by
  induction pieces with
  | nil => intro sorted h; simp at h
  | cons q rest ih =>
    intro sorted h
    cases q with
    | none => exact ⟨_, rfl⟩
    | some p =>
      cases hg : getLimitByStorageNodeID limits p.nodeId with
      | error e => exact ⟨e, by simp [sortLimitsLoop, hg]⟩
      | ok found =>
        by_cases hr : 0 ≤ p.pieceNum ∧ p.pieceNum < (sorted.length : Int)
        · obtain ⟨x, hx, hbad⟩ := h
          have hxr : x ∈ rest := by
            rcases List.mem_cons.mp hx with h1 | h1
            · subst h1; exact absurd hr hbad
            · exact h1
          obtain ⟨e, he⟩ := ih (sorted.set p.pieceNum.toNat found)
            ⟨x, hxr, by simpa using hbad⟩
          refine ⟨e, ?_⟩
          simp only [sortLimitsLoop, hg, RemotePiece.GetPieceNum]
          rw [if_pos hr]
          exact he
        · refine ⟨.indexOutOfRange, ?_⟩
          simp only [sortLimitsLoop, hg, RemotePiece.GetPieceNum]
          rw [if_neg hr]

/-- On limits that carry their order limit and non-nil pieces, the only panic of
the loop of `sortLimits` is the bounds check of the store. -/
theorem sortLimitsLoop_panic_kind (limits : List (Option AddressedOrderLimit))
    (hl : ∀ l ∈ limits, (AddressedOrderLimit.GetLimit l).isSome = true)
    (pieces : List (Option RemotePiece)) :
    ∀ (sorted : List (Option AddressedOrderLimit)) (e : GoPanic),
      (∀ q ∈ pieces, q ≠ none) →
      sortLimitsLoop limits pieces sorted = .error e → e = .indexOutOfRange := by
  induction pieces with
  | nil => intro sorted e _ h; simp [sortLimitsLoop] at h
  | cons q rest ih =>
    intro sorted e hq h
    cases q with
    | none => exact absurd rfl (hq none (List.mem_cons_self _ _))
    | some p =>
      simp only [sortLimitsLoop, getLimitByStorageNodeID_eq_find limits _ hl,
        RemotePiece.GetPieceNum] at h
      split at h
      · exact ih _ e (fun x hx => hq x (List.mem_cons_of_mem _ hx)) h
      · cases h; rfl

/-! ## Alignment (`sortLimits`) -/

/-- C1: for a pointer whose pieces have pairwise distinct piece numbers in
`[0, total)` and for limits that are non-nil and carry their order limit,
`sortLimits` returns a slice of length `total`; slot `i` holds a limit exactly
when the pointer has a piece numbered `i` and the list has a limit for that
piece's node, it is then the first such limit of the list, and the slot is nil
otherwise. -/
theorem sortLimits_alignment (limits : List (Option AddressedOrderLimit))
    (pointer : Option Pointer)
    (ht : 0 ≤ pointerTotal pointer)
    (hl : ∀ l ∈ limits, (AddressedOrderLimit.GetLimit l).isSome = true)
    (hp : ∀ q ∈ pointerPieces pointer,
      ∃ p, q = some p ∧ 0 ≤ p.pieceNum ∧ p.pieceNum < pointerTotal pointer)
    (hd : ((pointerPieces pointer).map RemotePiece.GetPieceNum).Nodup) :
    ∃ sorted, sortLimits limits pointer = .ok sorted ∧
      (sorted.length : Int) = pointerTotal pointer ∧
      ∀ i : Nat, (i : Int) < pointerTotal pointer →
        (∀ a, sorted[i]? = some (some a) ↔
          ∃ p, some p ∈ pointerPieces pointer ∧ p.pieceNum = (i : Int) ∧
            limits.find? (fun l => decide (limitNodeID l = some p.nodeId)) = some (some a)) ∧
        (sorted[i]? = some none ↔
          ¬ ∃ p, some p ∈ pointerPieces pointer ∧ p.pieceNum = (i : Int) ∧
            ∃ l ∈ limits, limitNodeID l = some p.nodeId) := by
  obtain ⟨out, hout, hlen, hlast, hother⟩ := sortLimits_spec limits pointer ht hl hp
  refine ⟨out, hout, hlen, ?_⟩
  intro i hi
  by_cases hex : ∃ q ∈ pointerPieces pointer, RemotePiece.GetPieceNum q = (i : Int)
  · obtain ⟨q, hq, hqi⟩ := hex
    obtain ⟨p, hqp, hp0, _⟩ := hp q hq
    subst hqp
    have hpi : p.pieceNum = (i : Int) := hqi
    have hinj := List.inj_on_of_nodup_map hd
    have huniq : ∀ p2, some p2 ∈ pointerPieces pointer → p2.pieceNum = (i : Int) → p2 = p := by
      intro p2 h2 h2i
      have := hinj h2 hq (by simp [RemotePiece.GetPieceNum, h2i, hpi])
      exact Option.some.inj this
    obtain ⟨front, back, hdec⟩ := List.append_of_mem hq
    have hback : ∀ x ∈ back, RemotePiece.GetPieceNum x ≠ p.pieceNum := by
      intro x hx hxe
      rw [hdec, List.map_append, List.map_cons] at hd
      have h1 := (List.nodup_append.mp hd).2.1
      have h2 := (List.nodup_cons.mp h1).1
      have hxe2 : RemotePiece.GetPieceNum x = RemotePiece.GetPieceNum (some p) := hxe
      exact h2 (hxe2 ▸ List.mem_map_of_mem _ hx)
    have hslot := hlast front p back hdec hback
    have hidx : p.pieceNum.toNat = i := by omega
    rw [hidx] at hslot
    have hnone : limits.find? (fun l => decide (limitNodeID l = some p.nodeId)) ≠ some none := by
      intro h
      have := List.find?_some h
      simp [limitNodeID_none] at this
    constructor
    · intro a
      rw [hslot]
      constructor
      · intro h
        refine ⟨p, hq, hpi, ?_⟩
        exact Option.join_eq_some.mp (Option.some.inj h)
      · rintro ⟨p2, h2, h2i, hf⟩
        rw [huniq p2 h2 h2i] at hf
        rw [hf]; rfl
    · rw [hslot]
      constructor
      · intro h
        rintro ⟨p2, h2, h2i, l, hlm, hln⟩
        rw [huniq p2 h2 h2i] at hln
        have hj : (limits.find? (fun l => decide (limitNodeID l = some p.nodeId))).join = none :=
          Option.some.inj h
        cases hf : limits.find? (fun l => decide (limitNodeID l = some p.nodeId)) with
        | none =>
          have := List.find?_eq_none.mp hf l hlm
          simp [hln] at this
        | some v =>
          cases v with
          | none => exact hnone hf
          | some a => rw [hf] at hj; simp at hj
      · intro h
        cases hf : limits.find? (fun l => decide (limitNodeID l = some p.nodeId)) with
        | none => rfl
        | some v =>
          exfalso
          apply h
          refine ⟨p, hq, hpi, v, List.mem_of_find?_eq_some hf, ?_⟩
          simpa using List.find?_some hf
  · have hno : ∀ q ∈ pointerPieces pointer, RemotePiece.GetPieceNum q ≠ (i : Int) :=
      fun q hq hqi => hex ⟨q, hq, hqi⟩
    have hslot := hother i hi hno
    constructor
    · intro a
      rw [hslot]
      constructor
      · intro h; simp at h
      · rintro ⟨p, hpm, hpi, _⟩
        exact absurd hpi (hno (some p) hpm)
    · rw [hslot]
      constructor
      · intro _
        rintro ⟨p, hpm, hpi, _⟩
        exact absurd hpi (hno (some p) hpm)
      · intro _; rfl

/-- Witness of `sortLimits_alignment` on `alignedPointer`: the hypotheses hold and
the slice is `[limitB, nil, limitA]`. -/
theorem sortLimits_alignment_witness :
    sortLimits exampleLimits (some alignedPointer) = .ok [some limitB, none, some limitA] ∧
    ∃ sorted, sortLimits exampleLimits (some alignedPointer) = .ok sorted ∧
      (sorted.length : Int) = pointerTotal (some alignedPointer) ∧
      ∀ i : Nat, (i : Int) < pointerTotal (some alignedPointer) →
        (∀ a, sorted[i]? = some (some a) ↔
          ∃ p, some p ∈ pointerPieces (some alignedPointer) ∧ p.pieceNum = (i : Int) ∧
            exampleLimits.find? (fun l => decide (limitNodeID l = some p.nodeId)) =
              some (some a)) ∧
        (sorted[i]? = some none ↔
          ¬ ∃ p, some p ∈ pointerPieces (some alignedPointer) ∧ p.pieceNum = (i : Int) ∧
            ∃ l ∈ exampleLimits, limitNodeID l = some p.nodeId) :=
  ⟨rfl,
   sortLimits_alignment exampleLimits (some alignedPointer) (by decide) (by decide)
    (by
      intro q hq
      have hq2 : q = some ⟨2, nodeA⟩ ∨ q = some ⟨0, nodeB⟩ ∨ q = some ⟨1, nodeC⟩ := by
        simpa [pointerPieces, alignedPointer, RemoteSegment.GetRemotePieces,
          Pointer.GetRemote] using hq
      rcases hq2 with h | h | h <;> subst h <;> exact ⟨_, rfl, by decide, by decide⟩)
    (by decide)⟩

/-- C2, as stated, fails: on `duplicatePointer`, whose two pieces are both
numbered 0, `sortLimits` and `ReadSegment` return a slice and no error; slot 0
was first written with the limit of `nodeA` and holds the limit of `nodeB`, the
later piece. -/
theorem sortLimits_duplicate_returns :
    sortLimits exampleLimits (some duplicatePointer) = .ok [some limitB, none, none] ∧
    ReadSegment (downloadCoordinator duplicatePointer) [] [] 0 =
      .ok ⟨some duplicatePointer, [some limitB, none, none], none⟩ ∧
    sortLimitsLoop exampleLimits [some ⟨0, nodeA⟩] [none, none, none] =
      .ok [some limitA, none, none] :=
  ⟨rfl, rfl, rfl⟩

/-- C2 (amended): for a pointer whose piece numbers lie in `[0, total)`, equal
piece numbers included, `sortLimits` returns a slice of length `total` and
`ReadSegment` returns it with a nil error; the slot of a piece number holds the
lookup for the last piece of the pointer that carries the number. -/
theorem sortLimits_last_piece_wins (limits : List (Option AddressedOrderLimit))
    (pointer : Option Pointer)
    (ht : 0 ≤ pointerTotal pointer)
    (hl : ∀ l ∈ limits, (AddressedOrderLimit.GetLimit l).isSome = true)
    (hp : ∀ q ∈ pointerPieces pointer,
      ∃ p, q = some p ∧ 0 ≤ p.pieceNum ∧ p.pieceNum < pointerTotal pointer) :
    ∃ sorted, sortLimits limits pointer = .ok sorted ∧
      (sorted.length : Int) = pointerTotal pointer ∧
      (∀ coordinator bucket path segmentIndex,
        coordinator ⟨bucket, path, segmentIndex⟩ = .ok ⟨limits, pointer⟩ →
        ReadSegment coordinator bucket path segmentIndex = .ok ⟨pointer, sorted, none⟩) ∧
      ∀ front p back, pointerPieces pointer = front ++ some p :: back →
        (∀ q ∈ back, RemotePiece.GetPieceNum q ≠ p.pieceNum) →
        sorted[p.pieceNum.toNat]? =
          some (limits.find? (fun l => decide (limitNodeID l = some p.nodeId))).join := by
  obtain ⟨out, hout, hlen, hlast, _⟩ := sortLimits_spec limits pointer ht hl hp
  refine ⟨out, hout, hlen, ?_, hlast⟩
  intro coordinator bucket path segmentIndex hc
  simp [ReadSegment, hc, hout]

/-- Witness of `sortLimits_last_piece_wins` on `duplicatePointer`. -/
theorem sortLimits_last_piece_wins_witness :
    ∃ sorted, sortLimits exampleLimits (some duplicatePointer) = .ok sorted ∧
      (sorted.length : Int) = pointerTotal (some duplicatePointer) ∧
      (∀ coordinator bucket path segmentIndex,
        coordinator ⟨bucket, path, segmentIndex⟩ = .ok ⟨exampleLimits, some duplicatePointer⟩ →
        ReadSegment coordinator bucket path segmentIndex =
          .ok ⟨some duplicatePointer, sorted, none⟩) ∧
      ∀ front p back, pointerPieces (some duplicatePointer) = front ++ some p :: back →
        (∀ q ∈ back, RemotePiece.GetPieceNum q ≠ p.pieceNum) →
        sorted[p.pieceNum.toNat]? =
          some (exampleLimits.find? (fun l => decide (limitNodeID l = some p.nodeId))).join :=
  sortLimits_last_piece_wins exampleLimits (some duplicatePointer) (by decide) (by decide)
    (by
      intro q hq
      have hq2 : q = some ⟨0, nodeA⟩ ∨ q = some ⟨0, nodeB⟩ := by
        simpa [pointerPieces, duplicatePointer, RemoteSegment.GetRemotePieces,
          Pointer.GetRemote] using hq
      rcases hq2 with h | h <;> subst h <;> exact ⟨_, rfl, by decide, by decide⟩)

/-- C3, as stated, fails: on `outOfRangePointer`, whose second piece is numbered
`total`, `sortLimits` and `ReadSegment` end in the index-out-of-range panic of the
store; `ReadSegment` returns nothing, so no error value reaches the caller. -/
theorem readSegment_out_of_range_panics :
    sortLimits exampleLimits (some outOfRangePointer) = .error .indexOutOfRange ∧
    ReadSegment (downloadCoordinator outOfRangePointer) [] [] 0 = .error .indexOutOfRange ∧
    ¬ ∃ result, ReadSegment (downloadCoordinator outOfRangePointer) [] [] 0 = .ok result := by
  refine ⟨rfl, rfl, ?_⟩
  rintro ⟨result, h⟩
  have h2 : ReadSegment (downloadCoordinator outOfRangePointer) [] [] 0 =
      .error .indexOutOfRange := rfl
  rw [h2] at h
  cases h

/-- C3 (amended): for a pointer with a piece whose number is not in
`[0, total)`, `sortLimits` ends in a run-time panic and so does `ReadSegment`:
neither a slice nor an error value is returned.  When the limits carry their order
limit, the pieces are non-nil and `total` is not negative, the panic is the
index-out-of-range of the bounds-checked store. -/
theorem sortLimits_out_of_range (limits : List (Option AddressedOrderLimit))
    (pointer : Option Pointer)
    (h : ∃ q ∈ pointerPieces pointer,
      ¬ (0 ≤ RemotePiece.GetPieceNum q ∧ RemotePiece.GetPieceNum q < pointerTotal pointer)) :
    (∃ e, sortLimits limits pointer = .error e ∧
      ∀ coordinator bucket path segmentIndex,
        coordinator ⟨bucket, path, segmentIndex⟩ = .ok ⟨limits, pointer⟩ →
        ReadSegment coordinator bucket path segmentIndex = .error e) ∧
    ((∀ l ∈ limits, (AddressedOrderLimit.GetLimit l).isSome = true) →
      (∀ q ∈ pointerPieces pointer, q ≠ none) → 0 ≤ pointerTotal pointer →
      sortLimits limits pointer = .error .indexOutOfRange) := by
  have hpanic : ∃ e, sortLimits limits pointer = .error e := by
    by_cases ht : pointerTotal pointer < 0
    · exact ⟨.makeLenOutOfRange, if_pos ht⟩
    · have hlen : (((List.replicate (pointerTotal pointer).toNat
          (none : Option AddressedOrderLimit)).length : Nat) : Int) = pointerTotal pointer := by
        rw [List.length_replicate, Int.toNat_of_nonneg (not_lt.mp ht)]
      obtain ⟨e, he⟩ := sortLimitsLoop_out_of_range limits (pointerPieces pointer)
        (List.replicate (pointerTotal pointer).toNat none) (by rw [hlen]; exact h)
      exact ⟨e, (if_neg ht).trans he⟩
  obtain ⟨e, he⟩ := hpanic
  refine ⟨⟨e, he, ?_⟩, ?_⟩
  · intro coordinator bucket path segmentIndex hc
    simp [ReadSegment, hc, he]
  · intro hl hq ht
    have hloop : sortLimitsLoop limits (pointerPieces pointer)
        (List.replicate (pointerTotal pointer).toNat none) = .error e := by
      rw [← he]
      exact ((if_neg (not_lt.mpr ht)).symm : _ = sortLimits limits pointer)
    rw [he, sortLimitsLoop_panic_kind limits hl (pointerPieces pointer) _ e hq hloop]

/-- Witness of `sortLimits_out_of_range` on `outOfRangePointer`. -/
theorem sortLimits_out_of_range_witness :
    (∃ e, sortLimits exampleLimits (some outOfRangePointer) = .error e ∧
      ∀ coordinator bucket path segmentIndex,
        coordinator ⟨bucket, path, segmentIndex⟩ = .ok ⟨exampleLimits, some outOfRangePointer⟩ →
        ReadSegment coordinator bucket path segmentIndex = .error e) ∧
    ((∀ l ∈ exampleLimits, (AddressedOrderLimit.GetLimit l).isSome = true) →
      (∀ q ∈ pointerPieces (some outOfRangePointer), q ≠ none) →
      0 ≤ pointerTotal (some outOfRangePointer) →
      sortLimits exampleLimits (some outOfRangePointer) = .error .indexOutOfRange) :=
  sortLimits_out_of_range exampleLimits (some outOfRangePointer)
    ⟨some ⟨3, nodeB⟩, by decide, by decide⟩

/-! ## Error classification (`SegmentInfo`, `ReadSegment`, `DeleteSegment`) -/

/-- An error wrapped by a class belongs to the class. -/
theorem ErrClass.has_wrap_self (cls : ErrClass) (err : CoordError) :
    cls.Has (cls.Wrap err) = true := by
  cases err with
  | wrapped c cause =>
    by_cases h : c = cls
    · simp [ErrClass.Wrap, ErrClass.Has, h]
    · simp [ErrClass.Wrap, ErrClass.Has, h]
  | status code message => simp [ErrClass.Wrap, ErrClass.Has]
  | timestamp message => simp [ErrClass.Wrap, ErrClass.Has]
  | plain message => simp [ErrClass.Wrap, ErrClass.Has]

/-- An error wrapped by a class belongs to another class exactly when the wrapped
error did. -/
theorem ErrClass.has_wrap_other (cls other : ErrClass) (err : CoordError) (hne : cls ≠ other) :
    other.Has (cls.Wrap err) = other.Has err := by
  cases err with
  | wrapped c cause =>
    by_cases h : c = cls
    · simp [ErrClass.Wrap, h]
    · simp [ErrClass.Wrap, ErrClass.Has, h, hne]
  | status code message => simp [ErrClass.Wrap, ErrClass.Has, hne]
  | timestamp message => simp [ErrClass.Wrap, ErrClass.Has, hne]
  | plain message => simp [ErrClass.Wrap, ErrClass.Has, hne]

/-- Wrapping keeps the innermost error. -/
theorem ErrClass.unwrap_wrap (cls : ErrClass) (err : CoordError) :
    (cls.Wrap err).Unwrap = err.Unwrap := by
  cases err with
  | wrapped c cause =>
    by_cases h : c = cls
    · simp [ErrClass.Wrap, h]
    · simp [ErrClass.Wrap, GoError.Unwrap, h]
  | status code message => simp [ErrClass.Wrap, GoError.Unwrap]
  | timestamp message => simp [ErrClass.Wrap, GoError.Unwrap]
  | plain message => simp [ErrClass.Wrap, GoError.Unwrap]

/-- The result of wrapping is the error itself or a new error of the class
directly around it. -/
theorem ErrClass.wrap_shape (cls : ErrClass) (err : CoordError) :
    cls.Wrap err = err ∨ cls.Wrap err = .wrapped cls err := by
  cases err with
  | wrapped c cause =>
    by_cases h : c = cls
    · left; simp [ErrClass.Wrap, h]
    · right; simp [ErrClass.Wrap, h]
  | status code message => right; rfl
  | timestamp message => right; rfl
  | plain message => right; rfl

/-- C4, as stated, fails: for the coordinator error `keyNotFoundClassError`, which
already belongs to `storage.ErrKeyNotFound` and whose status code is `Unknown`,
not `NotFound`, each of `SegmentInfo`, `ReadSegment` and `DeleteSegment` returns
the error wrapped in the metainfo `Error` class, and that error belongs to the
not-found class. -/
theorem notFound_class_without_status :
    status.Code keyNotFoundClassError = Code.unknown ∧
    status.Code keyNotFoundClassError ≠ Code.notFound ∧
    SegmentInfo (fun _ => .error keyNotFoundClassError) [98] [112] 0 =
      ⟨none, some (.wrapped .Error keyNotFoundClassError)⟩ ∧
    ReadSegment (fun _ => .error keyNotFoundClassError) [98] [112] 0 =
      .ok ⟨none, [], some (.wrapped .Error keyNotFoundClassError)⟩ ∧
    DeleteSegment (fun _ => .error keyNotFoundClassError) [98] [112] 0 =
      ⟨[], some (.wrapped .Error keyNotFoundClassError)⟩ ∧
    ErrClass.ErrKeyNotFound.Has (.wrapped .Error keyNotFoundClassError) = true :=
  ⟨rfl, by decide, rfl, rfl, rfl, rfl⟩

/-- C4 (amended): when the coordinator call fails, each of `SegmentInfo`,
`ReadSegment` and `DeleteSegment` returns no pointer and no limits, and the
coordinator error wrapped by `storage.ErrKeyNotFound` exactly when its status code
is `NotFound`, by the metainfo `Error` class otherwise.  The returned error
belongs to the not-found class exactly when the status code is `NotFound` or the
coordinator error already belonged to that class; for a coordinator error outside
that class, exactly when the status code is `NotFound`.  Any other coordinator
error comes back in the metainfo `Error` class, and both wrappings keep the
coordinator error: the returned error is it or is directly around it, with the
same innermost error. -/
theorem notFound_mapping (err : CoordError) (bucket path : Bytes) (segmentIndex : Int)
    (info : SegmentRequest → Except CoordError SegmentInfoResponse)
    (download : SegmentRequest → Except CoordError SegmentDownloadResponse)
    (delete : SegmentRequest → Except CoordError SegmentDeleteResponse)
    (hinfo : info ⟨bucket, path, segmentIndex⟩ = .error err)
    (hdownload : download ⟨bucket, path, segmentIndex⟩ = .error err)
    (hdelete : delete ⟨bucket, path, segmentIndex⟩ = .error err) :
    ∃ e : GoError,
      SegmentInfo info bucket path segmentIndex = ⟨none, some e⟩ ∧
      ReadSegment download bucket path segmentIndex = .ok ⟨none, [], some e⟩ ∧
      DeleteSegment delete bucket path segmentIndex = ⟨[], some e⟩ ∧
      (ErrClass.ErrKeyNotFound.Has e = true ↔
        status.Code err = Code.notFound ∨ ErrClass.ErrKeyNotFound.Has err = true) ∧
      (ErrClass.ErrKeyNotFound.Has err = false →
        (ErrClass.ErrKeyNotFound.Has e = true ↔ status.Code err = Code.notFound)) ∧
      (status.Code err = Code.notFound →
        e = ErrClass.ErrKeyNotFound.Wrap err ∧ ErrClass.ErrKeyNotFound.Has e = true) ∧
      (status.Code err ≠ Code.notFound →
        e = ErrClass.Error.Wrap err ∧ ErrClass.Error.Has e = true) ∧
      (e = err ∨ ∃ cls, e = .wrapped cls err) ∧
      e.Unwrap = err.Unwrap := by
  by_cases hc : status.Code err = Code.notFound
  · have hhas := ErrClass.has_wrap_self .ErrKeyNotFound err
    refine ⟨ErrClass.ErrKeyNotFound.Wrap err, ?_, ?_, ?_, ?_, ?_, ?_, ?_, ?_,
      ErrClass.unwrap_wrap _ err⟩
    · simp [SegmentInfo, hinfo, hc]
    · simp [ReadSegment, hdownload, hc]
    · simp [DeleteSegment, hdelete, hc]
    · simp [hc, hhas]
    · intro _; simp [hc, hhas]
    · intro _; exact ⟨rfl, hhas⟩
    · intro h; exact absurd hc h
    · rcases ErrClass.wrap_shape .ErrKeyNotFound err with h | h
      · exact Or.inl h
      · exact Or.inr ⟨_, h⟩
  · have hother := ErrClass.has_wrap_other .Error .ErrKeyNotFound err (by decide)
    refine ⟨ErrClass.Error.Wrap err, ?_, ?_, ?_, ?_, ?_, ?_, ?_, ?_,
      ErrClass.unwrap_wrap _ err⟩
    · simp [SegmentInfo, hinfo, hc]
    · simp [ReadSegment, hdownload, hc]
    · simp [DeleteSegment, hdelete, hc]
    · rw [hother]; simp [hc]
    · intro h; rw [hother, h]; simp [hc]
    · intro h; exact absurd h hc
    · intro _; exact ⟨rfl, ErrClass.has_wrap_self .Error err⟩
    · rcases ErrClass.wrap_shape .Error err with h | h
      · exact Or.inl h
      · exact Or.inr ⟨_, h⟩

/-- Witness of `notFound_mapping` on coordinators that answer with the not-found
status: the three operations return the error in the not-found class. -/
theorem notFound_mapping_witness :
    ∃ e : GoError,
      SegmentInfo (fun _ => .error notFoundError) [98] [112] 0 = ⟨none, some e⟩ ∧
      ReadSegment (fun _ => .error notFoundError) [98] [112] 0 = .ok ⟨none, [], some e⟩ ∧
      DeleteSegment (fun _ => .error notFoundError) [98] [112] 0 = ⟨[], some e⟩ ∧
      (ErrClass.ErrKeyNotFound.Has e = true ↔
        status.Code notFoundError = Code.notFound ∨
          ErrClass.ErrKeyNotFound.Has notFoundError = true) ∧
      (ErrClass.ErrKeyNotFound.Has notFoundError = false →
        (ErrClass.ErrKeyNotFound.Has e = true ↔ status.Code notFoundError = Code.notFound)) ∧
      (status.Code notFoundError = Code.notFound →
        e = ErrClass.ErrKeyNotFound.Wrap notFoundError ∧
          ErrClass.ErrKeyNotFound.Has e = true) ∧
      (status.Code notFoundError ≠ Code.notFound →
        e = ErrClass.Error.Wrap notFoundError ∧ ErrClass.Error.Has e = true) ∧
      (e = notFoundError ∨ ∃ cls, e = .wrapped cls notFoundError) ∧
      e.Unwrap = notFoundError.Unwrap :=
  notFound_mapping notFoundError [98] [112] 0 (fun _ => .error notFoundError)
    (fun _ => .error notFoundError) (fun _ => .error notFoundError) rfl rfl rfl

/-! ## `CommitSegment` -/

/-- C7, as stated, fails: committing `alignedPointer`, whose segment size is 1024,
sends a pointer whose segment size is 133713371337133, and the caller's pointer
holds that size after the call. -/
theorem commitSegment_changes_segmentSize :
    ∃ run request,
      CommitSegment (fun _ => .ok ⟨none⟩) [98] [112] 0 (some alignedPointer) [] = .ok run ∧
      run.sent = some request ∧
      request.pointer ≠ some alignedPointer ∧
      request.pointer = some { alignedPointer with segmentSize := 133713371337133 } ∧
      run.pointer ≠ some alignedPointer :=
  ⟨_, _, rfl, rfl, by decide, rfl, by decide⟩

/-- C7 (amended): for every locator, non-nil pointer and list of original limits,
the one `SegmentCommitRequest` sent carries the caller's bucket, path, segment
index and original limits, and the caller's pointer with `segmentSize` set to
133713371337133 and every other field as passed; the caller's pointer itself is
left with that segment size and is otherwise unchanged. -/
theorem commitSegment_request
    (coordinator : SegmentCommitRequest → Except CoordError SegmentCommitResponse)
    (bucket path : Bytes) (segmentIndex : Int) (pointer : Pointer)
    (originalLimits : List (Option OrderLimit2)) :
    ∃ run, CommitSegment coordinator bucket path segmentIndex (some pointer) originalLimits =
        .ok run ∧
      run.sent = some
        { bucket := bucket, path := path, segment := segmentIndex,
          pointer := some { pointer with segmentSize := 133713371337133 },
          originalLimits := originalLimits } ∧
      run.pointer = some { pointer with segmentSize := 133713371337133 } := by
  simp only [CommitSegment]
  split
  · exact ⟨_, rfl, rfl, rfl⟩
  · exact ⟨_, rfl, rfl, rfl⟩

/-! ## `ListSegments` -/

/-- The loop of `ListSegments` on non-nil items: the slots from `front.length` on
are overwritten, in order, with the projections of the items. -/
theorem listSegmentsLoop_spec (its : List ResponseItem) :
    ∀ front back : List ListItem, back.length = its.length →
      listSegmentsLoop (its.map some) front.length (front ++ back) =
        .ok (front ++ its.map (fun it => (⟨it.path, it.pointer, it.isPrefix⟩ : ListItem))) := by
  induction its with
  | nil =>
    intro front back hb
    have : back = [] := List.length_eq_zero.mp hb
    subst this
    rfl
  | cons it rest ih =>
    intro front back hb
    cases back with
    | nil => simp at hb
    | cons b back1 =>
      have hlen : back1.length = rest.length := by simpa using hb
      have hset : (front ++ b :: back1).set front.length
          (⟨it.path, it.pointer, it.isPrefix⟩ : ListItem) =
          (front ++ [⟨it.path, it.pointer, it.isPrefix⟩]) ++ back1 := by
        simp [List.set_append]
      have hnext := ih (front ++ [⟨it.path, it.pointer, it.isPrefix⟩]) back1 hlen
      simp only [List.length_append, List.length_singleton] at hnext
      simp only [List.map_cons, listSegmentsLoop, ResponseItem.GetPath, ResponseItem.GetPointer,
        hset, hnext]
      simp

/-- C8: on a successful coordinator call with non-nil items, `ListSegments`
returns the projection of the response: as many items, in the same order, item
`i` with the path, pointer and prefix flag of response item `i`, and the `more`
flag of the response; so a bound on the number of items and any order of the
paths carry over from the response.  On a failed call it returns no items,
`more = false` and the coordinator error in the metainfo `Error` class. -/
theorem listSegments_projection
    (coordinator : ListSegmentsRequest → Except CoordError ListSegmentsResponse)
    (bucket pfx startAfter endBefore : Bytes) (recursive : Bool) (limit : Int)
    (metaFlags : Nat) :
    (∀ (its : List ResponseItem) (more : Bool),
      coordinator ⟨bucket, pfx, startAfter, endBefore, recursive, limit, metaFlags⟩ =
        .ok ⟨its.map some, more⟩ →
      ∃ items, ListSegments coordinator bucket pfx startAfter endBefore recursive limit
          metaFlags = .ok ⟨items, more, none⟩ ∧
        items = its.map (fun it => (⟨it.path, it.pointer, it.isPrefix⟩ : ListItem)) ∧
        items.length = its.length ∧
        (∀ i : Nat, items[i]? =
          (its[i]?).map (fun it => (⟨it.path, it.pointer, it.isPrefix⟩ : ListItem))) ∧
        ((its.length : Int) ≤ limit → (items.length : Int) ≤ limit) ∧
        (∀ R : Bytes → Bytes → Prop, (its.map ResponseItem.path).Pairwise R →
          (items.map ListItem.Path).Pairwise R)) ∧
    (∀ err : CoordError,
      coordinator ⟨bucket, pfx, startAfter, endBefore, recursive, limit, metaFlags⟩ =
        .error err →
      ListSegments coordinator bucket pfx startAfter endBefore recursive limit metaFlags =
        .ok ⟨[], false, some (ErrClass.Error.Wrap err)⟩ ∧
      ErrClass.Error.Has (ErrClass.Error.Wrap err) = true) := by
  constructor
  · intro its more hc
    have hloop := listSegmentsLoop_spec its [] (List.replicate (its.map some).length ListItem.zero)
      (by simp)
    simp only [List.length_nil, List.nil_append] at hloop
    refine ⟨its.map (fun it => (⟨it.path, it.pointer, it.isPrefix⟩ : ListItem)), ?_, rfl,
      by simp, ?_, ?_, ?_⟩
    · simp only [ListSegments, hc, hloop]
    · intro i; simp
    · intro h; simpa using h
    · intro R h
      have : (its.map (fun it => (⟨it.path, it.pointer, it.isPrefix⟩ : ListItem))).map
          ListItem.Path = its.map ResponseItem.path := by
        simp [Function.comp_def]
      rw [this]; exact h
  · intro err hc
    refine ⟨?_, ErrClass.has_wrap_self .Error err⟩
    simp only [ListSegments, hc]

/-- Witness of `listSegments_projection` on `listCoordinator`: the two example
items come back projected, with `more = true`. -/
theorem listSegments_projection_witness :
    ListSegments listCoordinator [98] [] [] [] false 100 0 =
      .ok ⟨[⟨[97], some alignedPointer, false⟩, ⟨[98, 47], none, true⟩], true, none⟩ ∧
    ListSegments (fun _ => .error unavailableError) [98] [] [] [] false 100 0 =
      .ok ⟨[], false, some (ErrClass.Error.Wrap unavailableError)⟩ :=
  ⟨by
    obtain ⟨items, h, hi, _⟩ :=
      (listSegments_projection listCoordinator [98] [] [] [] false 100 0).1
        exampleItems true rfl
    rw [h, hi]; rfl,
   ((listSegments_projection (fun _ => .error unavailableError) [98] [] [] [] false 100 0).2
      unavailableError rfl).1⟩

/-! ## Lemmas on `CreateSegment` -/

theorem wrapInt32_sub_three (t : Int) (h0 : -2147483645 ≤ t) (h1 : t ≤ 2147483647) :
    wrapInt32 (t - 3) = t - 3 := by
  unfold wrapInt32
  omega

/-- The loop over the response on entries that carry their order limit: every
listed entry is appended, every other entry is appended and counted when
`total > 0`. -/
theorem collectLimits_spec (idString : NodeID → String) (total : Int)
    (entries : List (Option AddressedOrderLimit)) :
    ∀ (list : List (Option AddressedOrderLimit)) (count : Int),
      (∀ l ∈ entries, (AddressedOrderLimit.GetLimit l).isSome = true) →
      collectLimits idString total entries (list, count) =
        .ok (list ++ entries.filter (fun l => isListedLimit idString l || decide (total > 0)),
          count + (entries.countP (fun l => !isListedLimit idString l && decide (total > 0)) : Nat)) := by
  induction entries with
  | nil => intro list count _; simp [collectLimits]
  | cons entry rest ih =>
    intro list count hl
    have hrest : ∀ l ∈ rest, (AddressedOrderLimit.GetLimit l).isSome = true :=
      fun l h => hl l (List.mem_cons_of_mem _ h)
    have h0 := hl entry (List.mem_cons_self _ _)
    cases entry with
    | none => simp [AddressedOrderLimit.GetLimit] at h0
    | some a =>
      cases hlim : a.limit with
      | none => simp [AddressedOrderLimit.GetLimit, hlim] at h0
      | some ol =>
        have hlisted : isListedLimit idString (some a) = isListedNode idString ol.storageNodeId := by
          simp [isListedLimit, limitNodeID, AddressedOrderLimit.GetLimit, hlim]
        by_cases h1 : isListedNode idString ol.storageNodeId = true
        · simp only [collectLimits, hlim, h1, if_true, ih _ _ hrest]
          simp [List.filter_cons, List.countP_cons, hlisted, h1]
        · by_cases h2 : total > 0
          · simp only [collectLimits, hlim, h1, h2, if_true, ih _ _ hrest]
            simp [List.filter_cons, List.countP_cons, hlisted, h1, h2]
            omega
          · simp only [collectLimits, hlim, h1, h2, if_false, ih _ _ hrest]
            simp [List.filter_cons, List.countP_cons, hlisted, h1, h2]

/-- The exit test `count+1 == len(list)` after the loop over a response whose
entries carry their order limit: it holds exactly when one entry is listed, and
`list` is the whole response when `total > 0`, its listed entries otherwise. -/
theorem collectLimits_exit (idString : NodeID → String) (total : Int)
    (entries : List (Option AddressedOrderLimit))
    (hl : ∀ l ∈ entries, (AddressedOrderLimit.GetLimit l).isSome = true) :
    ∃ list count, collectLimits idString total entries ([], 0) = .ok (list, count) ∧
      list = (if total > 0 then entries else entries.filter (isListedLimit idString)) ∧
      (count + 1 = (list.length : Int) ↔ entries.countP (isListedLimit idString) = 1) := by
  refine ⟨_, _, collectLimits_spec idString total entries [] 0 hl, ?_, ?_⟩
  · by_cases h : total > 0
    · simp [h]
    · simp [h]
  · by_cases h : total > 0
    · have hsplit := List.length_eq_countP_add_countP (p := isListedLimit idString) entries
      have hc : entries.countP (fun a => decide ¬isListedLimit idString a = true) =
          entries.countP (fun l => !isListedLimit idString l) := by
        apply List.countP_congr
        intro x _
        simp
      simp only [h, decide_True, Bool.or_true, Bool.and_true, List.filter_true, List.nil_append]
      rw [hc] at hsplit
      omega
    · simp only [h, decide_False, Bool.or_false, Bool.and_false, List.nil_append,
        List.countP_eq_length_filter]
      simp
      have he : (fun l => isListedLimit idString l) = isListedLimit idString := rfl
      rw [he]
      omega

/-- An iteration whose response holds exactly one listed entry returns. -/
theorem createSegmentLoop_exit
    (coordinator : Nat → SegmentWriteRequest → Except CoordError SegmentWriteResponse)
    (idString : NodeID → String) (request : SegmentWriteRequest) (total : Int)
    (fuel calls : Nat) (response : SegmentWriteResponse)
    (hc : coordinator calls request = .ok response)
    (hl : ∀ l ∈ response.addressedLimits, (AddressedOrderLimit.GetLimit l).isSome = true)
    (h1 : response.addressedLimits.countP (isListedLimit idString) = 1) :
    createSegmentLoop coordinator idString request total (fuel + 1) calls =
      ([request], .returned
        ⟨if total > 0 then response.addressedLimits
          else response.addressedLimits.filter (isListedLimit idString),
         response.rootPieceId, none⟩) := by
  obtain ⟨list, count, hcol, hlist, hex⟩ :=
    collectLimits_exit idString total response.addressedLimits hl
  simp only [createSegmentLoop, hc, hcol]
  rw [if_pos (hex.mpr h1), hlist]

/-- An iteration whose response does not hold exactly one listed entry goes
round the loop: the request is sent again. -/
theorem createSegmentLoop_again
    (coordinator : Nat → SegmentWriteRequest → Except CoordError SegmentWriteResponse)
    (idString : NodeID → String) (request : SegmentWriteRequest) (total : Int)
    (fuel calls : Nat) (response : SegmentWriteResponse)
    (hc : coordinator calls request = .ok response)
    (hl : ∀ l ∈ response.addressedLimits, (AddressedOrderLimit.GetLimit l).isSome = true)
    (h1 : response.addressedLimits.countP (isListedLimit idString) ≠ 1) :
    createSegmentLoop coordinator idString request total (fuel + 1) calls =
      (request :: (createSegmentLoop coordinator idString request total fuel (calls + 1)).1,
        (createSegmentLoop coordinator idString request total fuel (calls + 1)).2) := by
  obtain ⟨list, count, hcol, _, hex⟩ :=
    collectLimits_exit idString total response.addressedLimits hl
  simp only [createSegmentLoop, hc, hcol]
  rw [if_neg (fun h => h1 (hex.mp h))]

/-- A failed coordinator call ends the loop with the wrapped error. -/
theorem createSegmentLoop_fail
    (coordinator : Nat → SegmentWriteRequest → Except CoordError SegmentWriteResponse)
    (idString : NodeID → String) (request : SegmentWriteRequest) (total : Int)
    (fuel calls : Nat) (err : CoordError)
    (hc : coordinator calls request = .error err) :
    createSegmentLoop coordinator idString request total (fuel + 1) calls =
      ([request], .returned ⟨[], PieceID.zero, some (ErrClass.Error.Wrap err)⟩) := by
  simp only [createSegmentLoop, hc]

/-- After `k` iterations that go round the loop, `k` requests have been sent and
the loop goes on from call `calls + k`. -/
theorem createSegmentLoop_prefix
    (coordinator : Nat → SegmentWriteRequest → Except CoordError SegmentWriteResponse)
    (idString : NodeID → String) (request : SegmentWriteRequest) (total : Int) (m : Nat) :
    ∀ (k calls : Nat),
      (∀ n, calls ≤ n → n < calls + k → ∃ response, coordinator n request = .ok response ∧
        (∀ l ∈ response.addressedLimits, (AddressedOrderLimit.GetLimit l).isSome = true) ∧
        response.addressedLimits.countP (isListedLimit idString) ≠ 1) →
      createSegmentLoop coordinator idString request total (k + m) calls =
        (List.replicate k request ++
          (createSegmentLoop coordinator idString request total m (calls + k)).1,
         (createSegmentLoop coordinator idString request total m (calls + k)).2) := by
  intro k
  induction k with
  | zero => intro calls _; simp
  | succ k ih =>
    intro calls h
    obtain ⟨response, hc, hl, h1⟩ := h calls (Nat.le_refl _) (by omega)
    have hnext := ih (calls + 1) (fun n hn1 hn2 => h n (by omega) (by omega))
    have hfuel : k + 1 + m = (k + m) + 1 := by omega
    rw [hfuel, createSegmentLoop_again coordinator idString request total (k + m) calls
      response hc hl h1, hnext]
    have hcalls : calls + 1 + k = calls + (k + 1) := by omega
    rw [hcalls]
    simp [List.replicate_succ]

/-- Every request the loop sends is the request it was given. -/
theorem createSegmentLoop_sent
    (coordinator : Nat → SegmentWriteRequest → Except CoordError SegmentWriteResponse)
    (idString : NodeID → String) (request : SegmentWriteRequest) (total : Int) :
    ∀ (fuel calls : Nat),
      ∀ sent ∈ (createSegmentLoop coordinator idString request total fuel calls).1,
        sent = request := by
  intro fuel
  induction fuel with
  | zero => intro calls sent h; simp [createSegmentLoop] at h
  | succ fuel ih =>
    intro calls sent h
    simp only [createSegmentLoop] at h
    split at h
    · simpa using h
    · split at h
      · simpa using h
      · split at h
        · simpa using h
        · rcases List.mem_cons.mp h with h | h
          · exact h
          · exact ih (calls + 1) sent h

/-- An error returned by the loop is a coordinator error wrapped in the metainfo
`Error` class. -/
theorem createSegmentLoop_error
    (coordinator : Nat → SegmentWriteRequest → Except CoordError SegmentWriteResponse)
    (idString : NodeID → String) (request : SegmentWriteRequest) (total : Int) :
    ∀ (fuel calls : Nat) (result : CreateResult) (e : GoError),
      (createSegmentLoop coordinator idString request total fuel calls).2 = .returned result →
      result.err = some e →
      ∃ n err, coordinator n request = .error err ∧ e = ErrClass.Error.Wrap err ∧
        result.limits = [] := by
  intro fuel
  induction fuel with
  | zero => intro calls result e h; simp [createSegmentLoop] at h
  | succ fuel ih =>
    intro calls result e h he
    simp only [createSegmentLoop] at h
    split at h
    · rename_i err hc
      simp only [Outcome.returned.injEq] at h
      subst h
      simp only [Option.some.injEq] at he
      exact ⟨calls, err, hc, he.symm, rfl⟩
    · split at h
      · simp at h
      · split at h
        · simp only [Outcome.returned.injEq] at h
          subst h
          simp at he
        · exact ih (calls + 1) result e h he

/-- A loop with fuel for one iteration sends one request. -/
theorem createSegmentLoop_one_sent
    (coordinator : Nat → SegmentWriteRequest → Except CoordError SegmentWriteResponse)
    (idString : NodeID → String) (request : SegmentWriteRequest) (total : Int) (calls : Nat) :
    (createSegmentLoop coordinator idString request total 1 calls).1 = [request] := by
  simp only [createSegmentLoop]
  split
  · rfl
  · split
    · rfl
    · split <;> rfl

/-- Past the conversion of the expiration, `CreateSegment` sets the caller's
`Total` to 256 and runs the loop from call 0. -/
theorem CreateSegment_eq_loop
    (coordinator : Nat → SegmentWriteRequest → Except CoordError SegmentWriteResponse)
    (idString : NodeID → String) (timestampProto : Time → Except String Timestamp)
    (bucket path : Bytes) (segmentIndex : Int) (r : RedundancyScheme)
    (maxEncryptedSegmentSize : Int) (expiration : Time) (fuel : Nat) (exp : Option Timestamp)
    (hexp : expirationProto timestampProto expiration = .ok exp) :
    CreateSegment coordinator idString timestampProto bucket path segmentIndex (some r)
        maxEncryptedSegmentSize expiration fuel =
      ⟨some { r with total := 256 },
       (createSegmentLoop coordinator idString
          (writeRequest bucket path segmentIndex { r with total := 256 }
            maxEncryptedSegmentSize exp) (wrapInt32 (r.total - 3)) fuel 0).1,
       (createSegmentLoop coordinator idString
          (writeRequest bucket path segmentIndex { r with total := 256 }
            maxEncryptedSegmentSize exp) (wrapInt32 (r.total - 3)) fuel 0).2⟩ := by
  simp only [CreateSegment, hexp]

/-- When the conversion of the expiration fails, `CreateSegment` returns its error
before touching the scheme or the coordinator. -/
theorem CreateSegment_eq_timestamp_error
    (coordinator : Nat → SegmentWriteRequest → Except CoordError SegmentWriteResponse)
    (idString : NodeID → String) (timestampProto : Time → Except String Timestamp)
    (bucket path : Bytes) (segmentIndex : Int) (redundancy : Option RedundancyScheme)
    (maxEncryptedSegmentSize : Int) (expiration : Time) (fuel : Nat) (msg : String)
    (hexp : expirationProto timestampProto expiration = .error msg) :
    CreateSegment coordinator idString timestampProto bucket path segmentIndex redundancy
        maxEncryptedSegmentSize expiration fuel =
      ⟨redundancy, [], .returned ⟨[], PieceID.zero, some (.timestamp msg)⟩⟩ := by
  simp only [CreateSegment, hexp]

/-- After `n` iterations that go round the loop `CreateSegment` has sent `n`
requests and goes on with the loop from call `n`. -/
theorem CreateSegment_after_rounds
    (coordinator : Nat → SegmentWriteRequest → Except CoordError SegmentWriteResponse)
    (idString : NodeID → String) (timestampProto : Time → Except String Timestamp)
    (bucket path : Bytes) (segmentIndex : Int) (r : RedundancyScheme)
    (maxEncryptedSegmentSize : Int) (expiration : Time) (exp : Option Timestamp)
    (hexp : expirationProto timestampProto expiration = .ok exp) (n m : Nat)
    (hprev : ∀ k < n, ∃ response,
      coordinator k (writeRequest bucket path segmentIndex { r with total := 256 }
        maxEncryptedSegmentSize exp) = .ok response ∧
      (∀ l ∈ response.addressedLimits, (AddressedOrderLimit.GetLimit l).isSome = true) ∧
      response.addressedLimits.countP (isListedLimit idString) ≠ 1) :
    CreateSegment coordinator idString timestampProto bucket path segmentIndex (some r)
        maxEncryptedSegmentSize expiration (n + m) =
      ⟨some { r with total := 256 },
       List.replicate n (writeRequest bucket path segmentIndex { r with total := 256 }
          maxEncryptedSegmentSize exp) ++
        (createSegmentLoop coordinator idString
          (writeRequest bucket path segmentIndex { r with total := 256 }
            maxEncryptedSegmentSize exp) (wrapInt32 (r.total - 3)) m n).1,
       (createSegmentLoop coordinator idString
          (writeRequest bucket path segmentIndex { r with total := 256 }
            maxEncryptedSegmentSize exp) (wrapInt32 (r.total - 3)) m n).2⟩ := by
  rw [CreateSegment_eq_loop _ _ _ _ _ _ _ _ _ _ exp hexp,
    createSegmentLoop_prefix coordinator idString _ _ m n 0
      (fun k _ hk => hprev k (by omega))]
  simp

/-! ## `CreateSegment` -/

/-- C5, as stated, fails: called with `schemeOfEighty`, whose total is 80,
`CreateSegment` sends a request whose scheme has total 256, and the caller's
scheme has total 256 after the call. -/
theorem createSegment_overrides_total :
    ((CreateSegment (fun _ _ => .ok responseOf25) exampleIdString acceptingProto [98] [112] 0
        (some schemeOfEighty) 4096 zeroTime 1).sent.map
      (fun request => request.redundancy.map RedundancyScheme.total)) = [some 256] ∧
    (CreateSegment (fun _ _ => .ok responseOf25) exampleIdString acceptingProto [98] [112] 0
        (some schemeOfEighty) 4096 zeroTime 1).redundancy =
      some { schemeOfEighty with total := 256 } ∧
    (CreateSegment (fun _ _ => .ok responseOf25) exampleIdString acceptingProto [98] [112] 0
        (some schemeOfEighty) 4096 zeroTime 1).redundancy ≠ some schemeOfEighty ∧
    schemeOfEighty.total = 80 := by
  have hrun := CreateSegment_eq_loop (fun _ _ => .ok responseOf25) exampleIdString
    acceptingProto [98] [112] 0 schemeOfEighty 4096 zeroTime 1 none rfl
  refine ⟨?_, ?_, ?_, rfl⟩
  · rw [hrun]
    simp only [createSegmentLoop_one_sent]
    rfl
  · rw [hrun]
  · rw [hrun]
    decide

/-- C5 (amended): every `SegmentWriteRequest` that `CreateSegment` sends carries
the caller's bucket, path, segment index and size limit, and the caller's scheme
with `total` replaced by 256, whatever total the caller asked for; once the
expiration is converted the caller's scheme is left with `total = 256` and its
other fields unchanged, and when the conversion fails nothing is sent and the
scheme is untouched. -/
theorem createSegment_requests_256
    (coordinator : Nat → SegmentWriteRequest → Except CoordError SegmentWriteResponse)
    (idString : NodeID → String) (timestampProto : Time → Except String Timestamp)
    (bucket path : Bytes) (segmentIndex : Int) (r : RedundancyScheme)
    (maxEncryptedSegmentSize : Int) (expiration : Time) (fuel : Nat) :
    (∀ request ∈ (CreateSegment coordinator idString timestampProto bucket path segmentIndex
        (some r) maxEncryptedSegmentSize expiration fuel).sent,
      request.redundancy = some { r with total := 256 } ∧ request.bucket = bucket ∧
        request.path = path ∧ request.segment = segmentIndex ∧
        request.maxEncryptedSegmentSize = maxEncryptedSegmentSize) ∧
    (∀ exp, expirationProto timestampProto expiration = .ok exp →
      (CreateSegment coordinator idString timestampProto bucket path segmentIndex
        (some r) maxEncryptedSegmentSize expiration fuel).redundancy =
        some { r with total := 256 }) ∧
    (∀ msg, expirationProto timestampProto expiration = .error msg →
      (CreateSegment coordinator idString timestampProto bucket path segmentIndex
        (some r) maxEncryptedSegmentSize expiration fuel).redundancy = some r ∧
      (CreateSegment coordinator idString timestampProto bucket path segmentIndex
        (some r) maxEncryptedSegmentSize expiration fuel).sent = []) := by
  refine ⟨?_, ?_, ?_⟩
  · intro request hreq
    cases hexp : expirationProto timestampProto expiration with
    | error msg =>
      rw [CreateSegment_eq_timestamp_error _ _ _ _ _ _ _ _ _ _ msg hexp] at hreq
      simp at hreq
    | ok exp =>
      rw [CreateSegment_eq_loop _ _ _ _ _ _ _ _ _ _ exp hexp] at hreq
      have := createSegmentLoop_sent _ _ _ _ _ _ request hreq
      subst this
      exact ⟨rfl, rfl, rfl, rfl, rfl⟩
  · intro exp hexp
    rw [CreateSegment_eq_loop _ _ _ _ _ _ _ _ _ _ exp hexp]
  · intro msg hexp
    rw [CreateSegment_eq_timestamp_error _ _ _ _ _ _ _ _ _ _ msg hexp]
    exact ⟨rfl, rfl⟩

/-- Witness of `createSegment_requests_256` on `schemeOfEighty`: the one request
sent carries total 256. -/
theorem createSegment_requests_256_witness :
    (∀ request ∈ (CreateSegment (fun _ _ => .ok responseOf25) exampleIdString acceptingProto
        [98] [112] 0 (some schemeOfEighty) 4096 zeroTime 1).sent,
      request.redundancy = some { schemeOfEighty with total := 256 }) ∧
    (CreateSegment (fun _ _ => .ok responseOf25) exampleIdString acceptingProto
        [98] [112] 0 (some schemeOfEighty) 4096 zeroTime 1).redundancy =
        some { schemeOfEighty with total := 256 } :=
  ⟨fun request h =>
    ((createSegment_requests_256 (fun _ _ => .ok responseOf25) exampleIdString acceptingProto
      [98] [112] 0 schemeOfEighty 4096 zeroTime 1).1 request h).1,
   (createSegment_requests_256 (fun _ _ => .ok responseOf25) exampleIdString acceptingProto
      [98] [112] 0 schemeOfEighty 4096 zeroTime 1).2.1 none rfl⟩

/-- C10: in `CreateSegment`, after any number `n` of iterations that went round
the loop, iteration `n` on a successful response (entries non-nil, each with its
order limit) returns exactly when one entry of the response is for a listed node;
it then returns the root piece id of the response and, when the caller's total is
greater than 3, the whole list of the response in its order, otherwise only the
listed entry; when it does not return, the request is sent again.  A failed call
returns at once the coordinator error in the metainfo `Error` class.  The total is
an `int32` from which 3 can be subtracted without overflow. -/
theorem createSegment_filter_loop
    (coordinator : Nat → SegmentWriteRequest → Except CoordError SegmentWriteResponse)
    (idString : NodeID → String) (timestampProto : Time → Except String Timestamp)
    (bucket path : Bytes) (segmentIndex : Int) (r : RedundancyScheme)
    (maxEncryptedSegmentSize : Int) (expiration : Time) (exp : Option Timestamp)
    (hexp : expirationProto timestampProto expiration = .ok exp)
    (hr : -2147483645 ≤ r.total ∧ r.total ≤ 2147483647) (n extra : Nat)
    (hprev : ∀ k < n, ∃ response,
      coordinator k (writeRequest bucket path segmentIndex { r with total := 256 }
        maxEncryptedSegmentSize exp) = .ok response ∧
      (∀ l ∈ response.addressedLimits, (AddressedOrderLimit.GetLimit l).isSome = true) ∧
      response.addressedLimits.countP (isListedLimit idString) ≠ 1) :
    (∀ response,
      coordinator n (writeRequest bucket path segmentIndex { r with total := 256 }
        maxEncryptedSegmentSize exp) = .ok response →
      (∀ l ∈ response.addressedLimits, (AddressedOrderLimit.GetLimit l).isSome = true) →
      (response.addressedLimits.countP (isListedLimit idString) = 1 →
        CreateSegment coordinator idString timestampProto bucket path segmentIndex (some r)
            maxEncryptedSegmentSize expiration (n + (extra + 1)) =
          ⟨some { r with total := 256 },
           List.replicate (n + 1) (writeRequest bucket path segmentIndex { r with total := 256 }
              maxEncryptedSegmentSize exp),
           .returned
            ⟨if 3 < r.total then response.addressedLimits
              else response.addressedLimits.filter (isListedLimit idString),
             response.rootPieceId, none⟩⟩ ∧
        (response.addressedLimits.filter (isListedLimit idString)).length = 1) ∧
      (response.addressedLimits.countP (isListedLimit idString) ≠ 1 →
        (CreateSegment coordinator idString timestampProto bucket path segmentIndex (some r)
            maxEncryptedSegmentSize expiration (n + 1)).outcome = .running ∧
        (CreateSegment coordinator idString timestampProto bucket path segmentIndex (some r)
            maxEncryptedSegmentSize expiration (n + 2)).sent =
          List.replicate (n + 2) (writeRequest bucket path segmentIndex { r with total := 256 }
              maxEncryptedSegmentSize exp))) ∧
    (∀ err,
      coordinator n (writeRequest bucket path segmentIndex { r with total := 256 }
        maxEncryptedSegmentSize exp) = .error err →
      CreateSegment coordinator idString timestampProto bucket path segmentIndex (some r)
          maxEncryptedSegmentSize expiration (n + (extra + 1)) =
        ⟨some { r with total := 256 },
         List.replicate (n + 1) (writeRequest bucket path segmentIndex { r with total := 256 }
            maxEncryptedSegmentSize exp),
         .returned ⟨[], PieceID.zero, some (ErrClass.Error.Wrap err)⟩⟩ ∧
      ErrClass.Error.Has (ErrClass.Error.Wrap err) = true) := by
  have htotal : (wrapInt32 (r.total - 3) > 0) ↔ 3 < r.total := by
    rw [wrapInt32_sub_three r.total hr.1 hr.2]
    omega
  refine ⟨fun response hc hl => ⟨fun h1 => ⟨?_, ?_⟩, fun h1 => ⟨?_, ?_⟩⟩, fun err hc => ⟨?_, ErrClass.has_wrap_self .Error err⟩⟩
  · rw [CreateSegment_after_rounds _ _ _ _ _ _ _ _ _ exp hexp n (extra + 1) hprev,
      createSegmentLoop_exit coordinator idString _ _ extra n response hc hl h1]
    simp only [htotal, List.replicate_succ']
  · rw [← List.countP_eq_length_filter]; exact h1
  · have hprev2 : ∀ k < n + 1, ∃ response,
        coordinator k (writeRequest bucket path segmentIndex { r with total := 256 }
          maxEncryptedSegmentSize exp) = .ok response ∧
        (∀ l ∈ response.addressedLimits, (AddressedOrderLimit.GetLimit l).isSome = true) ∧
        response.addressedLimits.countP (isListedLimit idString) ≠ 1 := by
      intro k hk
      by_cases hkn : k < n
      · exact hprev k hkn
      · have : k = n := by omega
        subst this
        exact ⟨response, hc, hl, h1⟩
    have := CreateSegment_after_rounds coordinator idString timestampProto bucket path
      segmentIndex r maxEncryptedSegmentSize expiration exp hexp (n + 1) 0 hprev2
    rw [Nat.add_zero] at this
    rw [this]
    rfl
  · have hprev2 : ∀ k < n + 1, ∃ response,
        coordinator k (writeRequest bucket path segmentIndex { r with total := 256 }
          maxEncryptedSegmentSize exp) = .ok response ∧
        (∀ l ∈ response.addressedLimits, (AddressedOrderLimit.GetLimit l).isSome = true) ∧
        response.addressedLimits.countP (isListedLimit idString) ≠ 1 := by
      intro k hk
      by_cases hkn : k < n
      · exact hprev k hkn
      · have : k = n := by omega
        subst this
        exact ⟨response, hc, hl, h1⟩
    have := CreateSegment_after_rounds coordinator idString timestampProto bucket path
      segmentIndex r maxEncryptedSegmentSize expiration exp hexp (n + 1) 1 hprev2
    rw [show n + 2 = n + 1 + 1 from rfl, this, createSegmentLoop_one_sent]
    simp only [List.replicate_succ' (n + 1)]
  · rw [CreateSegment_after_rounds _ _ _ _ _ _ _ _ _ exp hexp n (extra + 1) hprev,
      createSegmentLoop_fail coordinator idString _ _ extra n err hc]
    simp only [List.replicate_succ']

/-- Witness of `createSegment_filter_loop`: with `schemeOfEighty` and the response
of 25 limits, one of them listed, the first iteration returns the 25 limits. -/
theorem createSegment_filter_loop_witness :
    CreateSegment (fun _ _ => .ok responseOf25) exampleIdString acceptingProto [98] [112] 0
        (some schemeOfEighty) 4096 zeroTime 1 =
      ⟨some { schemeOfEighty with total := 256 },
       [writeRequest [98] [112] 0 { schemeOfEighty with total := 256 } 4096 none],
       .returned ⟨responseOf25.addressedLimits, responseOf25.rootPieceId, none⟩⟩ :=
  (((createSegment_filter_loop (fun _ _ => .ok responseOf25) exampleIdString acceptingProto
      [98] [112] 0 schemeOfEighty 4096 zeroTime none rfl (by decide) 0 0
      (fun k hk => absurd hk (Nat.not_lt_zero k))).1
    responseOf25 rfl (by decide)).1 (by decide)).1

/-- C6, as stated, fails: with `minReq = 29`, a response of 25 limits of which one
is listed makes `CreateSegment` succeed with the 25 limits and a nil error, and
responses of 29 limits of which none is listed do not make it succeed: it is still
in its loop after three of them. -/
theorem createSegment_no_threshold :
    (CreateSegment (fun _ _ => .ok responseOf25) exampleIdString acceptingProto [98] [112] 0
        (some schemeOfEighty) 4096 zeroTime 1).outcome =
      .returned ⟨responseOf25.addressedLimits, responseOf25.rootPieceId, none⟩ ∧
    responseOf25.addressedLimits.length = 25 ∧ schemeOfEighty.minReq = 29 ∧
    (CreateSegment (fun _ _ => .ok responseOf29) exampleIdString acceptingProto [98] [112] 0
        (some schemeOfEighty) 4096 zeroTime 3).outcome = .running ∧
    responseOf29.addressedLimits.length = 29 :=
  ⟨rfl, rfl, rfl, rfl, rfl⟩

/-- C6 (amended): `CreateSegment` compares the number of limits with nothing.
Whatever `minReq` the scheme carries, a successful first response with exactly one
listed entry makes it return the limits with a nil error; and every error it
returns comes with no limits and is either the error of the timestamp conversion
or a coordinator error wrapped in the metainfo `Error` class. -/
theorem createSegment_ignores_minReq
    (coordinator : Nat → SegmentWriteRequest → Except CoordError SegmentWriteResponse)
    (idString : NodeID → String) (timestampProto : Time → Except String Timestamp)
    (bucket path : Bytes) (segmentIndex : Int) (r : RedundancyScheme)
    (maxEncryptedSegmentSize : Int) (expiration : Time) (fuel : Nat) :
    (∀ (minReq : Int) (exp : Option Timestamp) (response : SegmentWriteResponse),
      expirationProto timestampProto expiration = .ok exp →
      coordinator 0 (writeRequest bucket path segmentIndex
        { r with minReq := minReq, total := 256 } maxEncryptedSegmentSize exp) = .ok response →
      (∀ l ∈ response.addressedLimits, (AddressedOrderLimit.GetLimit l).isSome = true) →
      response.addressedLimits.countP (isListedLimit idString) = 1 →
      (CreateSegment coordinator idString timestampProto bucket path segmentIndex
          (some { r with minReq := minReq }) maxEncryptedSegmentSize expiration
          (fuel + 1)).outcome =
        .returned
          ⟨if wrapInt32 (r.total - 3) > 0 then response.addressedLimits
            else response.addressedLimits.filter (isListedLimit idString),
           response.rootPieceId, none⟩) ∧
    (∀ (result : CreateResult) (e : GoError),
      (CreateSegment coordinator idString timestampProto bucket path segmentIndex (some r)
          maxEncryptedSegmentSize expiration fuel).outcome = .returned result →
      result.err = some e →
      result.limits = [] ∧
      ((∃ msg, expirationProto timestampProto expiration = .error msg ∧ e = .timestamp msg) ∨
        ∃ exp n err, expirationProto timestampProto expiration = .ok exp ∧
          coordinator n (writeRequest bucket path segmentIndex { r with total := 256 }
            maxEncryptedSegmentSize exp) = .error err ∧
          e = ErrClass.Error.Wrap err)) := by
  constructor
  · intro minReq exp response hexp hc hl h1
    rw [CreateSegment_eq_loop _ _ _ _ _ _ _ _ _ _ exp hexp]
    simp only []
    rw [createSegmentLoop_exit coordinator idString _ _ fuel 0 response hc hl h1]
  · intro result e hout he
    cases hexp : expirationProto timestampProto expiration with
    | error msg =>
      rw [CreateSegment_eq_timestamp_error _ _ _ _ _ _ _ _ _ _ msg hexp] at hout
      simp only [Outcome.returned.injEq] at hout
      subst hout
      simp only [Option.some.injEq] at he
      exact ⟨rfl, Or.inl ⟨msg, rfl, he.symm⟩⟩
    | ok exp =>
      rw [CreateSegment_eq_loop _ _ _ _ _ _ _ _ _ _ exp hexp] at hout
      obtain ⟨n, err, hc, hw, hlim⟩ :=
        createSegmentLoop_error coordinator idString _ _ fuel 0 result e hout he
      exact ⟨hlim, Or.inr ⟨exp, n, err, rfl, hc, hw⟩⟩

/-- Witness of `createSegment_ignores_minReq`: 25 limits against `minReq = 29`
are returned with a nil error. -/
theorem createSegment_ignores_minReq_witness :
    (CreateSegment (fun _ _ => .ok responseOf25) exampleIdString acceptingProto [98] [112] 0
        (some { schemeOfEighty with minReq := 29 }) 4096 zeroTime (0 + 1)).outcome =
      .returned
        ⟨if wrapInt32 (schemeOfEighty.total - 3) > 0 then responseOf25.addressedLimits
          else responseOf25.addressedLimits.filter (isListedLimit exampleIdString),
         responseOf25.rootPieceId, none⟩ :=
  (createSegment_ignores_minReq (fun _ _ => .ok responseOf25) exampleIdString acceptingProto
    [98] [112] 0 schemeOfEighty 4096 zeroTime 0).1 29 none responseOf25 rfl rfl
      (by decide) (by decide)

/-- C9, as stated, fails: with `schemeOfThree`, whose total is below 256, and a
successful response that holds one listed entry, the exit test holds in the first
iteration and `CreateSegment` returns the listed limit. -/
theorem createSegment_small_scheme_returns :
    (CreateSegment (fun _ _ => .ok responseOfTwo) exampleIdString acceptingProto [98] [112] 0
        (some schemeOfThree) 4096 zeroTime 1).outcome =
      .returned ⟨[some limitA], responseOfTwo.rootPieceId, none⟩ ∧
    schemeOfThree.total < 256 ∧
    collectLimits exampleIdString (wrapInt32 (schemeOfThree.total - 3))
      responseOfTwo.addressedLimits ([], 0) = .ok ([some limitA], 0) :=
  ⟨rfl, by decide, rfl⟩

/-- C9 (amended): the exit test of the loop does not depend on the total.  For
every scheme, also with a total below 256, and every sequence of successful
responses (entries non-nil, each with its order limit), `CreateSegment` stays in
its loop for ever exactly when no response of the sequence holds exactly one
listed entry. -/
theorem createSegment_loops_iff (responses : Nat → SegmentWriteResponse)
    (idString : NodeID → String) (timestampProto : Time → Except String Timestamp)
    (bucket path : Bytes) (segmentIndex : Int) (r : RedundancyScheme)
    (maxEncryptedSegmentSize : Int) (expiration : Time) (exp : Option Timestamp)
    (hexp : expirationProto timestampProto expiration = .ok exp)
    (hl : ∀ n, ∀ l ∈ (responses n).addressedLimits,
      (AddressedOrderLimit.GetLimit l).isSome = true) :
    (∀ fuel, (CreateSegment (fun n _ => .ok (responses n)) idString timestampProto bucket path
        segmentIndex (some r) maxEncryptedSegmentSize expiration fuel).outcome = .running) ↔
    ∀ n, (responses n).addressedLimits.countP (isListedLimit idString) ≠ 1 := by
  constructor
  · intro h n hn
    have hex : ∃ k, (responses k).addressedLimits.countP (isListedLimit idString) = 1 :=
      ⟨n, hn⟩
    have hmin : ∀ k, k < Nat.find hex →
        (responses k).addressedLimits.countP (isListedLimit idString) ≠ 1 :=
      fun k hk => Nat.find_min hex hk
    have hfound := Nat.find_spec hex
    have hrun := h (Nat.find hex + (0 + 1))
    rw [CreateSegment_after_rounds _ _ _ _ _ _ _ _ _ exp hexp (Nat.find hex) (0 + 1)
        (fun k hk => ⟨responses k, rfl, hl k, hmin k hk⟩),
      createSegmentLoop_exit _ idString _ _ 0 (Nat.find hex) (responses (Nat.find hex)) rfl
        (hl _) hfound] at hrun
    cases hrun
  · intro h fuel
    have := CreateSegment_after_rounds (fun n _ => .ok (responses n)) idString timestampProto
      bucket path segmentIndex r maxEncryptedSegmentSize expiration exp hexp fuel 0
      (fun k _ => ⟨responses k, rfl, hl k, h k⟩)
    rw [Nat.add_zero] at this
    rw [this]
    rfl

/-- Witness of `createSegment_loops_iff`: with responses of 29 limits, none of
them listed, `CreateSegment` is still in its loop whatever the fuel. -/
theorem createSegment_loops_iff_witness :
    (CreateSegment (fun _ _ => .ok responseOf29) exampleIdString acceptingProto [98] [112] 0
        (some schemeOfEighty) 4096 zeroTime 1000).outcome = .running :=
  (createSegment_loops_iff (fun _ => responseOf29) exampleIdString acceptingProto [98] [112] 0
    schemeOfEighty 4096 zeroTime none rfl
    (fun _ => (by decide : ∀ l ∈ responseOf29.addressedLimits,
      (AddressedOrderLimit.GetLimit l).isSome = true))).mpr
    (fun _ => (by decide :
      responseOf29.addressedLimits.countP (isListedLimit exampleIdString) ≠ 1)) 1000

end Metainfo
